import Mathlib

/-!
# Gin-Vue-Chat: the authorization-gated message router

A shallow embedding of `backend/models/{user,group,message}.go`, of
`backend/controllers/message.go` and of the handler `AddFriend` of
`backend/controllers/friend.go`.

* The MongoDB database is a record of lists of documents, in natural (insertion) order.
* Every driver call can return an error; a handler takes a function `fails` that says which
  of its driver calls do so.
* `time.Now()` and the identifier the driver gives an inserted document come from `Env`.
* A find sorted on one key leaves the order among equal keys to the server; the history
  queries take that order as the parameter `rank`.
* `Hub.SendToUser` is recorded as a trace of `(userID, payload)` calls.
-/

namespace GinVueChat

/-! ## primitive.ObjectID and encoding/hex -/

/-- The type `primitive.ObjectID` is `[12]byte`; it is kept as the number its bytes spell. -/
abbrev ObjectID := Fin (2 ^ 96)

/-- Go `encoding/hex.fromHexChar`: digits, lower case and upper case letters. -/
def fromHexChar (c : Char) : Option Nat :=
  if 48 ≤ c.toNat ∧ c.toNat ≤ 57 then some (c.toNat - 48)
  else if 97 ≤ c.toNat ∧ c.toNat ≤ 102 then some (c.toNat - 97 + 10)
  else if 65 ≤ c.toNat ∧ c.toNat ≤ 70 then some (c.toNat - 65 + 10)
  else none

/-- Go `encoding/hex.hextable`. -/
def hextable : String := "0123456789abcdef"

/-- One lower-case hexadecimal digit: `hextable[d]`. -/
def hexDigit (d : Nat) : Char := hextable.data.getD d '0'

/-- Go `hex.Decode`, big-endian, on the characters of the string. -/
def decodeHex (cs : List Char) : Option Nat :=
  cs.foldlM (fun acc c => (fromHexChar c).map (fun d => acc * 16 + d)) 0

/-- Go `hex.Encode` of a number on `k` digits, most significant first. -/
def encodeHex : Nat → Nat → List Char
  | 0, _ => []
  | k + 1, n => encodeHex k (n / 16) ++ [hexDigit (n % 16)]

/-- Go `primitive.ObjectIDFromHex`: exactly 24 hexadecimal digits. The source compares the byte
length; a string with a character outside ASCII fails the decoding in any case, so the number
of characters decides the same. -/
def ObjectIDFromHex (s : String) : Option ObjectID :=
  if s.length = 24 then
    (decodeHex s.data).map (fun n => (⟨n % 2 ^ 96, Nat.mod_lt _ (Nat.two_pow_pos 96)⟩ : ObjectID))
  else none

/-- Go `ObjectID.Hex`: 24 lower-case hexadecimal digits. -/
def ObjectID.Hex (id : ObjectID) : String := String.mk (encodeHex 24 id.val)

/-! ## Data model -/

/-- Go `models.User`. Times are numbers. -/
structure User where
  ID : ObjectID
  Username : String
  Password : String
  Email : String
  Avatar : String
  Status : String
  CreatedAt : Nat
  UpdatedAt : Nat
  Deleted : Bool
  deriving DecidableEq, Repr

/-- Go `models.Friendship`. -/
structure Friendship where
  ID : ObjectID
  UserID : String
  FriendID : String
  Status : String
  CreatedAt : Nat
  UpdatedAt : Nat
  Deleted : Bool
  deriving DecidableEq, Repr

/-- Go `models.Group`. -/
structure Group where
  ID : ObjectID
  Name : String
  Description : String
  Avatar : String
  CreatorID : String
  CreatedAt : Nat
  UpdatedAt : Nat
  Deleted : Bool
  deriving DecidableEq, Repr

/-- Go `models.GroupMember`. -/
structure GroupMember where
  ID : ObjectID
  GroupID : String
  UserID : String
  Role : String
  CreatedAt : Nat
  UpdatedAt : Nat
  Deleted : Bool
  deriving DecidableEq, Repr

/-- Go `models.MessageTypePrivate`. -/
def MessageTypePrivate : String := "private"

/-- Go `models.MessageTypeGroup`. -/
def MessageTypeGroup : String := "group"

/-- Go `models.Message`; an empty `ReceiverID` or `GroupID` is the omitted
field; `Type_` is the field `Type`.  -/
structure Message where
  ID : ObjectID
  Type_ : String
  SenderID : String
  ReceiverID : String
  GroupID : String
  Content : String
  Timestamp : Nat
  Read : Bool
  deriving DecidableEq, Repr

/-- The collections of `MongoDatabase`, each in natural order. -/
structure Store where
  users : List User
  friendships : List Friendship
  groups : List Group
  group_members : List GroupMember
  messages : List Message
  deriving DecidableEq, Repr

/-- The errors the model functions return. -/
inductive Error where
  | ErrInvalidHex
  | ErrNoDocuments
  | driver
  | New (text : String)
  deriving DecidableEq, Repr

/-- Go `err.text()`; the text of a driver error stands for whatever the driver reports. -/
def Error.text : Error → String
  | .ErrInvalidHex => "the provided hex string is not a valid ObjectID"
  | .ErrNoDocuments => "mongo: no documents in result"
  | .driver => "driver error"
  | .New text => text

/-- Go `UpdateOne`: the first document that matches the filter is replaced by its update. -/
def updateOne {α : Type} (p : α → Bool) (g : α → α) : List α → List α
  | [] => []
  | x :: xs => if p x then g x :: xs else x :: updateOne p g xs

/-- Equality of a filter value with a field stored `omitempty`: an empty field is absent from
the document and matches no string. -/
def omitemptyEq (stored value : String) : Bool := stored != "" && stored == value

/-- The order of a find sorted on `timestamp` alone, descending. The query names no second
key: among documents of equal timestamp the server keeps an order of its own, given here by
`rank`, and after it the natural order. -/
def timestampDesc (rank : Message → Nat) (a b : Message) : Prop :=
  b.Timestamp < a.Timestamp ∨ (a.Timestamp = b.Timestamp ∧ rank a ≤ rank b)

/-- The order of a find sorted on `timestamp` alone, ascending. -/
def timestampAsc (rank : Message → Nat) (a b : Message) : Prop :=
  a.Timestamp < b.Timestamp ∨ (a.Timestamp = b.Timestamp ∧ rank a ≤ rank b)

instance (rank : Message → Nat) : DecidableRel (timestampDesc rank) := fun a b => by
  unfold timestampDesc; infer_instance

instance (rank : Message → Nat) : DecidableRel (timestampAsc rank) := fun a b => by
  unfold timestampAsc; infer_instance

instance (rank : Message → Nat) : IsTotal Message (timestampDesc rank) :=
  ⟨fun a b => by unfold timestampDesc; omega⟩

instance (rank : Message → Nat) : IsTrans Message (timestampDesc rank) :=
  ⟨fun a b c => by unfold timestampDesc; omega⟩

instance (rank : Message → Nat) : IsTotal Message (timestampAsc rank) :=
  ⟨fun a b => by unfold timestampAsc; omega⟩

instance (rank : Message → Nat) : IsTrans Message (timestampAsc rank) :=
  ⟨fun a b c => by unfold timestampAsc; omega⟩

/-- The documents a cursor yields under `SetSkip` and `SetLimit`: the server refuses a negative
skip, a limit of 0 is no limit, and a negative limit counts as its absolute value. -/
def page (limit skip : Int) (sorted : List Message) : Except Error (List Message) :=
  if skip < 0 then .error .driver
  else
    let rest := sorted.drop skip.toNat
    .ok (if limit = 0 then rest else rest.take limit.natAbs)

/-- What a request sees besides the database: the clock `time.Now()` and the identifier the
driver assigns to the document it inserts. -/
structure Env where
  now : Nat
  newID : ObjectID

/-- The store answers every call: no driver call of the handler returns an error. A handler
takes a function of this type saying which of its driver calls fail, the calls being numbered
in the order in which the handler text reaches them. -/
def noFaults : Nat → Bool := fun _ => false

/-! ## models/user.go -/

namespace models

/-- Go `models.GetUserByID`. -/
def GetUserByID (err : Bool) (db : Store) (id : String) : Except Error User :=
  match ObjectIDFromHex id with
  | none => .error .ErrInvalidHex
  | some objectID =>
    if err then .error .driver
    else
      match db.users.find? (fun u => u.ID == objectID && u.Deleted == false) with
      | none => .error .ErrNoDocuments
      | some user => .ok user

/-- Go `models.GetFriendships`. -/
def GetFriendships (err : Bool) (db : Store) (userID status : String) :
    Except Error (List Friendship) :=
  if err then .error .driver
  else
    .ok (db.friendships.filter (fun f =>
      (f.UserID == userID || f.FriendID == userID) && f.Deleted == false
        && (status == "" || f.Status == status)))

/-- Go `models.GetUserByUsername`. -/
def GetUserByUsername (err : Bool) (db : Store) (username : String) : Except Error User :=
  if err then .error .driver
  else
    match db.users.find? (fun u => u.Username == username && u.Deleted == false) with
    | none => .error .ErrNoDocuments
    | some user => .ok user

/-- Go `models.AddFriend`. Four driver calls: the two user lookups, the search for an existing
edge, the insertion. -/
def AddFriend (err1 err2 err3 err4 : Bool) (env : Env) (db : Store)
    (userID friendID : String) : Except Error (Friendship × Store) :=
  match GetUserByID err1 db userID with
  | .error _ => .error (.New "用户不存在")
  | .ok _ =>
    match GetUserByID err2 db friendID with
    | .error _ => .error (.New "好友不存在")
    | .ok _ =>
      if err3 then .error .driver
      else
        match db.friendships.find? (fun f =>
            ((f.UserID == userID && f.FriendID == friendID) ||
              (f.UserID == friendID && f.FriendID == userID)) && f.Deleted == false) with
        | some _ => .error (.New "好友关系已存在")
        | none =>
          if err4 then .error .driver
          else
            let friendship : Friendship :=
              { ID := env.newID, UserID := userID, FriendID := friendID, Status := "pending",
                CreatedAt := env.now, UpdatedAt := env.now, Deleted := false }
            .ok (friendship, { db with friendships := db.friendships ++ [friendship] })

/-- Go `models.UpdateFriendship`: `$set` of the whole record on the document with its `_id`. -/
def UpdateFriendship (err : Bool) (now : Nat) (db : Store) (friendship : Friendship) :
    Except Error Store :=
  let friendship := { friendship with UpdatedAt := now }
  if err then .error .driver
  else
    let friendships :=
      updateOne (fun f => f.ID == friendship.ID) (fun _ => friendship) db.friendships
    .ok { db with friendships := friendships }

/-- Go `models.DeleteFriendship`. -/
def DeleteFriendship (err : Bool) (now : Nat) (db : Store) (id : String) : Except Error Store :=
  match ObjectIDFromHex id with
  | none => .error .ErrInvalidHex
  | some objectID =>
    if err then .error .driver
    else
      let friendships :=
        updateOne (fun f => f.ID == objectID)
          (fun f => { f with Deleted := true, UpdatedAt := now }) db.friendships
      .ok { db with friendships := friendships }

/-! ## models/group.go -/

/-- Go `models.GetGroupByID`. -/
def GetGroupByID (err : Bool) (db : Store) (id : String) : Except Error Group :=
  match ObjectIDFromHex id with
  | none => .error .ErrInvalidHex
  | some objectID =>
    if err then .error .driver
    else
      match db.groups.find? (fun g => g.ID == objectID && g.Deleted == false) with
      | none => .error .ErrNoDocuments
      | some group => .ok group

/-- Go `models.GetUserGroups`. Two driver calls. When no membership record carries a well-formed
group id, `groupIDs` stays the nil slice, which the driver sends as null, and the server
rejects an `$in` without an array: the second call then fails. -/
def GetUserGroups (err1 err2 : Bool) (db : Store) (userID : String) :
    Except Error (List Group) :=
  if err1 then .error .driver
  else
    let members := db.group_members.filter (fun m => m.UserID == userID && m.Deleted == false)
    if members.length = 0 then .ok []
    else
      let groupIDs := members.filterMap (fun m => ObjectIDFromHex m.GroupID)
      if err2 || groupIDs.isEmpty then .error .driver
      else .ok (db.groups.filter (fun g => groupIDs.contains g.ID && g.Deleted == false))

/-- Go `models.GetGroupMembers`. -/
def GetGroupMembers (err : Bool) (db : Store) (groupID : String) :
    Except Error (List GroupMember) :=
  if err then .error .driver
  else .ok (db.group_members.filter (fun m => m.GroupID == groupID && m.Deleted == false))

/-! ## models/message.go -/

/-- Go `models.SavePrivateMessage`: the message as returned, and the database after. -/
def SavePrivateMessage (err : Bool) (env : Env) (db : Store)
    (senderID receiverID content : String) : Except Error (Message × Store) :=
  let message : Message :=
    { ID := 0, Type_ := MessageTypePrivate, SenderID := senderID, ReceiverID := receiverID,
      GroupID := "", Content := content, Timestamp := env.now, Read := false }
  if err then .error .driver
  else
    let message := { message with ID := env.newID }
    .ok (message, { db with messages := db.messages ++ [message] })

/-- Go `models.SaveGroupMessage`. -/
def SaveGroupMessage (err : Bool) (env : Env) (db : Store)
    (senderID groupID content : String) : Except Error (Message × Store) :=
  let message : Message :=
    { ID := 0, Type_ := MessageTypeGroup, SenderID := senderID, ReceiverID := "",
      GroupID := groupID, Content := content, Timestamp := env.now, Read := false }
  if err then .error .driver
  else
    let message := { message with ID := env.newID }
    .ok (message, { db with messages := db.messages ++ [message] })

/-- Go `models.MarkMessagesAsRead`: `UpdateMany` with `_id ∈ messageIDs`, `$set read`. -/
def MarkMessagesAsRead (err : Bool) (db : Store) (messageIDs : List ObjectID) :
    Except Error Store :=
  if err then .error .driver
  else
    .ok { db with messages := db.messages.map (fun m =>
      if messageIDs.contains m.ID then { m with Read := true } else m) }

/-- Go `models.GetPrivateMessages`. -/
def GetPrivateMessages (err : Bool) (rank : Message → Nat) (db : Store)
    (userID1 userID2 : String) (limit skip : Int) : Except Error (List Message) :=
  if err then .error .driver
  else
    page limit skip ((db.messages.filter (fun m =>
      m.Type_ == MessageTypePrivate &&
        ((m.SenderID == userID1 && omitemptyEq m.ReceiverID userID2) ||
          (m.SenderID == userID2 && omitemptyEq m.ReceiverID userID1)))).insertionSort
      (timestampDesc rank))

/-- Go `models.GetGroupMessages`. -/
def GetGroupMessages (err : Bool) (rank : Message → Nat) (db : Store)
    (groupID : String) (limit skip : Int) : Except Error (List Message) :=
  if err then .error .driver
  else
    page limit skip ((db.messages.filter (fun m =>
      m.Type_ == MessageTypeGroup && omitemptyEq m.GroupID groupID)).insertionSort
      (timestampAsc rank))

end models

/-! ## controllers/message.go -/

/-- A value handed to `json.Marshal`: the maps of the handlers, keys in source order. -/
inductive JSON where
  | str (s : String)
  | time (t : Nat)
  | oid (id : ObjectID)
  | obj (fields : List (String × JSON))

/-- The member of an object under a key. -/
def JSON.get? (v : JSON) (key : String) : Option JSON :=
  match v with
  | .obj fields => fields.lookup key
  | _ => none

/-- The keys of an object, in order. -/
def JSON.keys : JSON → List String
  | .obj fields => fields.map Prod.fst
  | _ => []

/-- The value reached by following the keys from the root. -/
def JSON.path (v : JSON) : List String → Option JSON
  | [] => some v
  | key :: keys => (v.get? key).bind (fun w => w.path keys)

/-- Go `json.Marshal` on the envelopes of this file. Their leaves are strings, an ObjectID and
the `time.Time` of `time.Now()`, on which the encoder has no error; the bytes are kept as the
value they spell. -/
def json_Marshal (v : JSON) : Except Error JSON := .ok v

/-- The bodies `gin.H` the message handlers answer with. -/
inductive Body where
  | error (error : String)
  | message (message : String)
  | sent (message : String) (data : Message)
  | messages (messages : List Message)
  | friend (message : String) (id username avatar status : String)
  deriving DecidableEq, Repr

/-- How a handler ends: with `c.JSON`, by returning without writing a response, or in the
runtime panic of a nil pointer dereference. -/
inductive Outcome where
  | json (status : Nat) (body : Body)
  | noResponse
  | nilDereference
  deriving DecidableEq, Repr

/-- The HTTP status of an outcome, when the handler wrote one. -/
def Outcome.status : Outcome → Option Nat
  | .json status _ => some status
  | _ => none

/-- What a handler run leaves: its outcome, the database after it, and the calls
`hub.SendToUser(userID, payload)` it made, in order. -/
structure Effect where
  resp : Outcome
  db : Store
  sent : List (String × JSON)

namespace http

/-- Go `http.StatusOK`. -/
def StatusOK : Nat := 200
/-- Go `http.StatusBadRequest`. -/
def StatusBadRequest : Nat := 400
/-- Go `http.StatusForbidden`. -/
def StatusForbidden : Nat := 403
/-- Go `http.StatusNotFound`. -/
def StatusNotFound : Nat := 404
/-- Go `http.StatusConflict`. -/
def StatusConflict : Nat := 409
/-- Go `http.StatusInternalServerError`. -/
def StatusInternalServerError : Nat := 500

end http

namespace strconv

/-- The value of a string of decimal digits. -/
def parseDigits (cs : List Char) : Option Nat :=
  cs.foldlM (fun acc c =>
    if 48 ≤ c.toNat ∧ c.toNat ≤ 57 then some (acc * 10 + (c.toNat - 48)) else none) 0

/-- Go `strconv.ParseInt(s, 10, 64)`; `none` is a non-nil error (syntax or range). -/
def ParseInt (s : String) : Option Int :=
  match s.data with
  | [] => none
  | c :: cs =>
    let neg := c == '-'
    let digits := if c == '+' || c == '-' then cs else c :: cs
    if digits.isEmpty then none
    else
      match parseDigits digits with
      | none => none
      | some un =>
        if !neg && un ≥ 2 ^ 63 then none
        else if neg && un > 2 ^ 63 then none
        else some (if neg then -(un : Int) else (un : Int))

end strconv

namespace controllers

/-- Go `c.Query(key)`: the empty string when the parameter is absent. -/
def Query (value : Option String) : String := value.getD ""

/-- The page size of the history handlers, from the `limit` parameter (lines 63 to 68 and
207 to 212). -/
def pageLimit (limitStr : String) : Int :=
  if limitStr != "" then
    match strconv.ParseInt limitStr with
    | some l => if l > 0 then l else 20
    | none => 20
  else 20

/-- The offset of the history handlers, from the `skip` parameter (lines 70 to 75 and 214 to
219). -/
def pageSkip (skipStr : String) : Int :=
  if skipStr != "" then
    match strconv.ParseInt skipStr with
    | some s => if s ≥ 0 then s else 0
    | none => 0
  else 0

/-- Go `controllers.AddFriendRequest`. -/
structure AddFriendRequest where
  FriendId : String
  deriving DecidableEq, Repr

/-- Go `controllers.SendPrivateMessageRequest`, as decoded from the body. -/
structure SendPrivateMessageRequest where
  ReceiverID : String
  Content : String
  deriving DecidableEq, Repr

/-- Go `controllers.SendGroupMessageRequest`, as decoded from the body. -/
structure SendGroupMessageRequest where
  GroupID : String
  Content : String
  deriving DecidableEq, Repr

/-- The request of `MarkMessagesAsRead`; `none` is the nil slice of an absent or null field. -/
structure MarkMessagesAsReadRequest where
  MessageIDs : Option (List String)
  deriving DecidableEq, Repr

/-- The envelope `wsMessage` of `SendPrivateMessage`. -/
def privateEnvelope (message : Message) (sender : User) (senderID : String)
    (req : SendPrivateMessageRequest) : JSON :=
  .obj [("type", .str "private"),
    ("message", .obj [
      ("id", .str message.ID.Hex),
      ("from", .str senderID),
      ("to", .str req.ReceiverID),
      ("content", .str req.Content),
      ("timestamp", .time message.Timestamp),
      ("sender", .obj [
        ("id", .oid sender.ID),
        ("username", .str sender.Username),
        ("avatar", .str sender.Avatar)])])]

/-- The envelope `wsMessage` of `SendGroupMessage`. -/
def groupEnvelope (message : Message) (sender : User) (senderID : String)
    (req : SendGroupMessageRequest) : JSON :=
  .obj [("type", .str "group"),
    ("message", .obj [
      ("id", .str message.ID.Hex),
      ("groupId", .str req.GroupID),
      ("senderId", .str senderID),
      ("content", .str req.Content),
      ("timestamp", .time message.Timestamp),
      ("sender", .obj [
        ("id", .oid sender.ID),
        ("username", .str sender.Username),
        ("avatar", .str sender.Avatar)])])]

/-- Go `controllers.SendPrivateMessage`. `ShouldBindJSON` rejects an empty `required` field.
Driver calls: 0 the receiver lookup, 1 the friendship query, 2 the insertion, 3 the sender
lookup. The `wsHub` is in the context. -/
def SendPrivateMessage (fails : Nat → Bool) (env : Env) (db : Store) (senderID : String)
    (req : SendPrivateMessageRequest) : Effect :=
  if req.ReceiverID == "" || req.Content == "" then
    ⟨.json http.StatusBadRequest (.error "请求参数无效"), db, []⟩
  else
    match models.GetUserByID (fails 0) db req.ReceiverID with
    | .error _ => ⟨.json http.StatusNotFound (.error "接收者不存在"), db, []⟩
    | .ok _ =>
      match models.GetFriendships (fails 1) db senderID "accepted" with
      | .error _ => ⟨.json http.StatusInternalServerError (.error "服务器错误"), db, []⟩
      | .ok friendships =>
        let isFriend := friendships.any (fun friendship =>
          (friendship.UserID == senderID && friendship.FriendID == req.ReceiverID) ||
          (friendship.UserID == req.ReceiverID && friendship.FriendID == senderID))
        if !isFriend then
          ⟨.json http.StatusForbidden (.error "您不是该用户的好友"), db, []⟩
        else
          match models.SavePrivateMessage (fails 2) env db senderID req.ReceiverID
              req.Content with
          | .error _ => ⟨.json http.StatusInternalServerError (.error "保存消息失败"), db, []⟩
          | .ok (message, db) =>
            match models.GetUserByID (fails 3) db senderID with
            | .error _ => ⟨.nilDereference, db, []⟩
            | .ok sender =>
              let wsMessage := privateEnvelope message sender senderID req
              match json_Marshal (.obj [("data", wsMessage)]) with
              | .error _ => ⟨.noResponse, db, []⟩
              | .ok jsonData =>
                ⟨.json http.StatusOK (.sent "消息发送成功" message), db,
                  [(req.ReceiverID, jsonData)]⟩

/-- The loop of `SendGroupMessage` over the members: the calls of `hub.SendToUser`. -/
def fanOut (senderID : String) (wsMessage : JSON) (members : List GroupMember) :
    List (String × JSON) :=
  members.filterMap (fun member =>
    if member.UserID != senderID then
      match json_Marshal (.obj [("data", wsMessage)]) with
      | .error _ => none
      | .ok jsonData => some (member.UserID, jsonData)
    else none)

/-- Go `controllers.SendGroupMessage`. Driver calls: 0 the group lookup, 1 and 2 the two
queries of `GetUserGroups`, 3 the insertion, 4 the sender lookup, 5 the member query. -/
def SendGroupMessage (fails : Nat → Bool) (env : Env) (db : Store) (senderID : String)
    (req : SendGroupMessageRequest) : Effect :=
  if req.GroupID == "" || req.Content == "" then
    ⟨.json http.StatusBadRequest (.error "请求参数无效"), db, []⟩
  else
    match models.GetGroupByID (fails 0) db req.GroupID with
    | .error _ => ⟨.json http.StatusNotFound (.error "群组不存在"), db, []⟩
    | .ok _ =>
      match models.GetUserGroups (fails 1) (fails 2) db senderID with
      | .error _ => ⟨.json http.StatusInternalServerError (.error "服务器错误"), db, []⟩
      | .ok userGroups =>
        let isMember := userGroups.any (fun g => g.ID.Hex == req.GroupID)
        if !isMember then
          ⟨.json http.StatusForbidden (.error "您不是该群组的成员"), db, []⟩
        else
          match models.SaveGroupMessage (fails 3) env db senderID req.GroupID req.Content with
          | .error _ => ⟨.json http.StatusInternalServerError (.error "保存消息失败"), db, []⟩
          | .ok (message, db) =>
            match models.GetUserByID (fails 4) db senderID with
            | .error _ => ⟨.nilDereference, db, []⟩
            | .ok sender =>
              let wsMessage := groupEnvelope message sender senderID req
              match models.GetGroupMembers (fails 5) db req.GroupID with
              | .error _ =>
                ⟨.json http.StatusInternalServerError (.error "发送消息失败"), db, []⟩
              | .ok members =>
                ⟨.json http.StatusOK (.sent "消息发送成功" message), db,
                  fanOut senderID wsMessage members⟩

/-- Go `controllers.MarkMessagesAsRead`. Driver call 0 is the update. -/
def MarkMessagesAsRead (fails : Nat → Bool) (db : Store) (req : MarkMessagesAsReadRequest) :
    Effect :=
  match req.MessageIDs with
  | none => ⟨.json http.StatusBadRequest (.error "请求参数无效"), db, []⟩
  | some messageIDs =>
    let objectIDs := messageIDs.filterMap ObjectIDFromHex
    if objectIDs.length = 0 then
      ⟨.json http.StatusBadRequest (.error "无效的消息ID"), db, []⟩
    else
      match models.MarkMessagesAsRead (fails 0) db objectIDs with
      | .error _ => ⟨.json http.StatusInternalServerError (.error "标记消息失败"), db, []⟩
      | .ok db => ⟨.json http.StatusOK (.message "消息已标记为已读"), db, []⟩

/-- The authorization stage of `SendPrivateMessage` (lines 97 to 124): the rejection it
answers with, or `none` when it lets the request through. -/
def authorizePrivateSend (fails : Nat → Bool) (db : Store) (senderID : String)
    (req : SendPrivateMessageRequest) : Option Outcome :=
  match models.GetUserByID (fails 0) db req.ReceiverID with
  | .error _ => some (.json http.StatusNotFound (.error "接收者不存在"))
  | .ok _ =>
    match models.GetFriendships (fails 1) db senderID "accepted" with
    | .error _ => some (.json http.StatusInternalServerError (.error "服务器错误"))
    | .ok friendships =>
      let isFriend := friendships.any (fun friendship =>
        (friendship.UserID == senderID && friendship.FriendID == req.ReceiverID) ||
        (friendship.UserID == req.ReceiverID && friendship.FriendID == senderID))
      if !isFriend then some (.json http.StatusForbidden (.error "您不是该用户的好友"))
      else none

/-- The authorization stage of `GetPrivateMessages` (lines 32 to 60). -/
def authorizePrivateRetrieval (fails : Nat → Bool) (db : Store) (userID receiverID : String) :
    Option Outcome :=
  match models.GetUserByID (fails 0) db receiverID with
  | .error _ => some (.json http.StatusNotFound (.error "用户不存在"))
  | .ok _ =>
    match models.GetFriendships (fails 1) db userID "accepted" with
    | .error _ => some (.json http.StatusInternalServerError (.error "服务器错误"))
    | .ok friendships =>
      let isFriend := friendships.any (fun friendship =>
        (friendship.UserID == userID && friendship.FriendID == receiverID) ||
        (friendship.UserID == receiverID && friendship.FriendID == userID))
      if !isFriend then some (.json http.StatusForbidden (.error "您不是该用户的好友"))
      else none

/-- Go `controllers.GetPrivateMessages`. Driver calls: 0 the lookup of the other user, 1 the
friendship query, 2 the message query. -/
def GetPrivateMessages (fails : Nat → Bool) (rank : Message → Nat) (db : Store)
    (userID receiverID : String) (limitQuery skipQuery : Option String) : Effect :=
  match authorizePrivateRetrieval fails db userID receiverID with
  | some rejection => ⟨rejection, db, []⟩
  | none =>
    let limit := pageLimit (Query limitQuery)
    let skip := pageSkip (Query skipQuery)
    match models.GetPrivateMessages (fails 2) rank db userID receiverID limit skip with
    | .error _ => ⟨.json http.StatusInternalServerError (.error "获取消息失败"), db, []⟩
    | .ok messages => ⟨.json http.StatusOK (.messages messages), db, []⟩

/-- The authorization stage of `SendGroupMessage` (lines 241 to 268). -/
def authorizeGroupSend (fails : Nat → Bool) (db : Store) (senderID : String)
    (req : SendGroupMessageRequest) : Option Outcome :=
  match models.GetGroupByID (fails 0) db req.GroupID with
  | .error _ => some (.json http.StatusNotFound (.error "群组不存在"))
  | .ok _ =>
    match models.GetUserGroups (fails 1) (fails 2) db senderID with
    | .error _ => some (.json http.StatusInternalServerError (.error "服务器错误"))
    | .ok userGroups =>
      let isMember := userGroups.any (fun g => g.ID.Hex == req.GroupID)
      if !isMember then some (.json http.StatusForbidden (.error "您不是该群组的成员"))
      else none

/-- The authorization stage of `GetGroupMessages` (lines 177 to 204). -/
def authorizeGroupRetrieval (fails : Nat → Bool) (db : Store) (userID groupID : String) :
    Option Outcome :=
  match models.GetGroupByID (fails 0) db groupID with
  | .error _ => some (.json http.StatusNotFound (.error "群组不存在"))
  | .ok _ =>
    match models.GetUserGroups (fails 1) (fails 2) db userID with
    | .error _ => some (.json http.StatusInternalServerError (.error "服务器错误"))
    | .ok userGroups =>
      let isMember := userGroups.any (fun g => g.ID.Hex == groupID)
      if !isMember then some (.json http.StatusForbidden (.error "您不是该群组的成员"))
      else none

/-- Go `controllers.GetGroupMessages`. Driver calls: 0 the group lookup, 1 and 2 the two
queries of `GetUserGroups`, 3 the message query. -/
def GetGroupMessages (fails : Nat → Bool) (rank : Message → Nat) (db : Store)
    (userID groupID : String) (limitQuery skipQuery : Option String) : Effect :=
  match authorizeGroupRetrieval fails db userID groupID with
  | some rejection => ⟨rejection, db, []⟩
  | none =>
    let limit := pageLimit (Query limitQuery)
    let skip := pageSkip (Query skipQuery)
    match models.GetGroupMessages (fails 3) rank db groupID limit skip with
    | .error _ => ⟨.json http.StatusInternalServerError (.error "获取消息失败"), db, []⟩
    | .ok messages => ⟨.json http.StatusOK (.messages messages), db, []⟩

/-! ## controllers/friend.go -/

/-- Go `controllers.AddFriend`. Driver calls: 0 the lookup by user name, 1 to 4 the calls of
`models.AddFriend`, 5 the update; `now2` is the clock at the update. -/
def AddFriend (fails : Nat → Bool) (env : Env) (now2 : Nat) (db : Store) (userID : String)
    (req : AddFriendRequest) : Effect :=
  if req.FriendId == "" then
    ⟨.json http.StatusBadRequest (.error "请求参数无效"), db, []⟩
  else
    match models.GetUserByUsername (fails 0) db req.FriendId with
    | .error _ => ⟨.json http.StatusNotFound (.error "用户不存在"), db, []⟩
    | .ok friend =>
      if friend.ID.Hex == userID then
        ⟨.json http.StatusBadRequest (.error "不能添加自己为好友"), db, []⟩
      else
        match models.AddFriend (fails 1) (fails 2) (fails 3) (fails 4) env db userID
            friend.ID.Hex with
        | .error err =>
          if err.text == "好友关系已存在" then
            ⟨.json http.StatusConflict (.error "已经是好友或好友请求已发送"), db, []⟩
          else
            ⟨.json http.StatusInternalServerError (.error ("添加好友失败: " ++ err.text)), db,
              []⟩
        | .ok (friendship, db) =>
          let friendship := { friendship with Status := "accepted" }
          match models.UpdateFriendship (fails 5) now2 db friendship with
          | .error _ =>
            ⟨.json http.StatusInternalServerError (.error "更新好友关系失败"), db, []⟩
          | .ok db =>
            ⟨.json http.StatusOK (.friend "好友添加成功" friend.ID.Hex friend.Username
              friend.Avatar friend.Status), db, []⟩

end controllers

/-! ## The notions of the specification -/

/-- The id names an existing user that is not soft-deleted. -/
def UserExists (db : Store) (id : String) : Prop :=
  ∃ u ∈ db.users, ObjectIDFromHex id = some u.ID ∧ u.Deleted = false

/-- The id names an existing group that is not soft-deleted. -/
def GroupExists (db : Store) (id : String) : Prop :=
  ∃ g ∈ db.groups, ObjectIDFromHex id = some g.ID ∧ g.Deleted = false

/-- A non-deleted Friendship edge with status `accepted` between `a` and `b`, in either stored
orientation. -/
def AcceptedEdge (db : Store) (a b : String) : Prop :=
  ∃ f ∈ db.friendships, f.Deleted = false ∧ f.Status = "accepted" ∧
    ((f.UserID = a ∧ f.FriendID = b) ∨ (f.UserID = b ∧ f.FriendID = a))

/-- A non-deleted GroupMembership of user `a` in the group that the id `g` names: the record
has the user id `a` and a group id that spells the same ObjectID as `g`. -/
def GroupMembership (db : Store) (a g : String) : Prop :=
  ∃ m ∈ db.group_members, m.UserID = a ∧ m.Deleted = false ∧
    ∃ objectID ∈ ObjectIDFromHex m.GroupID, ObjectIDFromHex g = some objectID

/-- Each of the four calls into `models` that `SendPrivateMessage` makes returns a nil error:
the receiver lookup, the friendship query, the insertion, and the sender lookup that follows
it. The last one asks more than a store that answers: the sender's own record has to exist
and not be soft-deleted. -/
def PrivateStoreOperationsSucceed (fails : Nat → Bool) (env : Env) (db : Store)
    (senderID : String) (req : controllers.SendPrivateMessageRequest) : Prop :=
  (∃ u, models.GetUserByID (fails 0) db req.ReceiverID = .ok u) ∧
  (∃ fs, models.GetFriendships (fails 1) db senderID "accepted" = .ok fs) ∧
  (∃ p, models.SavePrivateMessage (fails 2) env db senderID req.ReceiverID req.Content
    = .ok p) ∧
  (∃ u, models.GetUserByID (fails 3) db senderID = .ok u)

/-- The authorization stage of `SendGroupMessage` passed: the group lookup returned a group,
the membership lookup returned the sender's groups, and the requested group is among them. -/
def GroupSendAuthorized (fails : Nat → Bool) (db : Store) (senderID : String)
    (req : controllers.SendGroupMessageRequest) : Prop :=
  (∃ g, models.GetGroupByID (fails 0) db req.GroupID = .ok g) ∧
  ∃ gs, models.GetUserGroups (fails 1) (fails 2) db senderID = .ok gs ∧
    gs.any (fun g => g.ID.Hex == req.GroupID) = true

/-- The message belongs to the private conversation of `u1` and `u2`. -/
def InConversation (u1 u2 : String) (m : Message) : Prop :=
  m.Type_ = "private" ∧
    ((m.SenderID = u1 ∧ m.ReceiverID = u2) ∨ (m.SenderID = u2 ∧ m.ReceiverID = u1))

/-- The message belongs to the conversation of the group `g`. -/
def InGroupConversation (g : String) (m : Message) : Prop :=
  m.Type_ = "group" ∧ m.GroupID = g

instance (g : String) (m : Message) : Decidable (InGroupConversation g m) := by
  unfold InGroupConversation; infer_instance

/-- The shape of a message: private with a receiver and no group, or group with a group and no
receiver. -/
def MessageShape (m : Message) : Prop :=
  (m.Type_ = "private" ∧ m.ReceiverID ≠ "" ∧ m.GroupID = "") ∨
  (m.Type_ = "group" ∧ m.GroupID ≠ "" ∧ m.ReceiverID = "")

/-- The database states the router reaches: from any database without messages, by the two
send handlers and the read-receipt handler (whatever their inputs, clock and store errors),
and by the operations outside the message path, which leave the messages as they are. -/
inductive Reachable : Store → Prop where
  | start (db : Store) (h : db.messages = []) : Reachable db
  | outside (db db2 : Store) (h : Reachable db) (hm : db2.messages = db.messages) :
      Reachable db2
  | sendPrivate (fails : Nat → Bool) (env : Env) (db : Store) (senderID : String)
      (req : controllers.SendPrivateMessageRequest) (h : Reachable db) :
      Reachable (controllers.SendPrivateMessage fails env db senderID req).db
  | sendGroup (fails : Nat → Bool) (env : Env) (db : Store) (senderID : String)
      (req : controllers.SendGroupMessageRequest) (h : Reachable db) :
      Reachable (controllers.SendGroupMessage fails env db senderID req).db
  | markRead (fails : Nat → Bool) (db : Store) (req : controllers.MarkMessagesAsReadRequest)
      (h : Reachable db) : Reachable (controllers.MarkMessagesAsRead fails db req).db

/-- Two friendship records join the same unordered pair of users. -/
def SamePair (f g : Friendship) : Prop :=
  (f.UserID = g.UserID ∧ f.FriendID = g.FriendID) ∨
  (f.UserID = g.FriendID ∧ f.FriendID = g.UserID)

/-- At most one non-deleted edge per unordered pair: no two records of the collection are both
non-deleted and join the same pair. -/
def UniqueEdges (friendships : List Friendship) : Prop :=
  friendships.Pairwise (fun f g => ¬ (f.Deleted = false ∧ g.Deleted = false ∧ SamePair f g))

/-- A non-deleted edge, of any status, between `a` and `b` in either stored orientation. -/
def LiveEdge (db : Store) (a b : String) : Prop :=
  ∃ f ∈ db.friendships, f.Deleted = false ∧
    ((f.UserID = a ∧ f.FriendID = b) ∨ (f.UserID = b ∧ f.FriendID = a))

instance (u1 u2 : String) (m : Message) : Decidable (InConversation u1 u2 m) := by
  unfold InConversation; infer_instance

instance (m : Message) : Decidable (MessageShape m) := by
  unfold MessageShape; infer_instance

instance (f g : Friendship) : Decidable (SamePair f g) := by
  unfold SamePair; infer_instance

instance (friendships : List Friendship) : Decidable (UniqueEdges friendships) := by
  unfold UniqueEdges; infer_instance

instance (db : Store) (a b : String) : Decidable (LiveEdge db a b) := by
  unfold LiveEdge; infer_instance

instance (db : Store) (id : String) : Decidable (UserExists db id) := by
  unfold UserExists; infer_instance

instance (db : Store) (id : String) : Decidable (GroupExists db id) := by
  unfold GroupExists; infer_instance

instance (db : Store) (a b : String) : Decidable (AcceptedEdge db a b) := by
  unfold AcceptedEdge; infer_instance

instance (db : Store) (a g : String) : Decidable (GroupMembership db a g) := by
  unfold GroupMembership; infer_instance

/-! ## Scenario data -/

/-- A user record with the fields the message path does not read left empty. -/
def mkUser (id : ObjectID) (name : String) (deleted : Bool) : User :=
  { ID := id, Username := name, Password := "", Email := "", Avatar := "", Status := "offline",
    CreatedAt := 0, UpdatedAt := 0, Deleted := deleted }

/-- A friendship record. -/
def mkFriendship (id : ObjectID) (userID friendID status : String) (deleted : Bool) :
    Friendship :=
  { ID := id, UserID := userID, FriendID := friendID, Status := status, CreatedAt := 0,
    UpdatedAt := 0, Deleted := deleted }

/-- A group record. -/
def mkGroup (id : ObjectID) (name creatorID : String) : Group :=
  { ID := id, Name := name, Description := "", Avatar := "", CreatorID := creatorID,
    CreatedAt := 0, UpdatedAt := 0, Deleted := false }

/-- A membership record. -/
def mkMember (id : ObjectID) (groupID userID role : String) : GroupMember :=
  { ID := id, GroupID := groupID, UserID := userID, Role := role, CreatedAt := 0, UpdatedAt := 0,
    Deleted := false }

/-- A private message record. -/
def mkPrivate (id : ObjectID) (senderID receiverID content : String) (read : Bool) : Message :=
  { ID := id, Type_ := MessageTypePrivate, SenderID := senderID, ReceiverID := receiverID,
    GroupID := "", Content := content, Timestamp := 1, Read := read }

/-- The id of user A. -/
def idA : String := "aaaaaaaaaaaaaaaaaaaaaaaa"
/-- The id of user B. -/
def idB : String := "bbbbbbbbbbbbbbbbbbbbbbbb"
/-- The id of user C. -/
def idC : String := "cccccccccccccccccccccccc"
/-- An id that names no user and no group. -/
def idD : String := "dddddddddddddddddddddddd"
/-- The id of group G. -/
def idG : String := "eeeeeeeeeeeeeeeeeeeeeeee"

/-- The clock and the next identifier of the scenarios. -/
def env0 : Env := { now := 1000, newID := 0x777 }

/-- Users A, B and C; A and B are friends (the edge is stored as (B, A)), C is a stranger to
both; group G has the members A (admin), B and C. -/
def db0 : Store :=
  { users := [mkUser 0xaaaaaaaaaaaaaaaaaaaaaaaa "alice" false,
      mkUser 0xbbbbbbbbbbbbbbbbbbbbbbbb "bob" false,
      mkUser 0xcccccccccccccccccccccccc "carol" false],
    friendships := [mkFriendship 1 idB idA "accepted" false],
    groups := [mkGroup 0xeeeeeeeeeeeeeeeeeeeeeeee "g" idA],
    group_members := [mkMember 1 idG idA "admin", mkMember 2 idG idB "member",
      mkMember 3 idG idC "member"],
    messages := [] }

/-- The id of a second group H. -/
def idH : String := "ffffffffffffffffffffffff"

/-- The store `db0` with more membership records, stored in this order: A (admin), B and C in
G as before, then a soft-deleted membership of D in G, a membership of D in the other group H,
and a soft-deleted second membership of B in G. The non-deleted members of G are A, B, C. -/
def dbGroupMixed : Store :=
  { db0 with group_members := [mkMember 1 idG idA "admin", mkMember 2 idG idB "member",
      mkMember 3 idG idC "member", { mkMember 4 idG idD "member" with Deleted := true },
      mkMember 5 idH idD "member", { mkMember 6 idG idB "member" with Deleted := true }] }

/-- User A is soft-deleted, user B exists, and an accepted edge (A, B) is stored. -/
def dbSenderDeleted : Store :=
  { users := [mkUser 0xaaaaaaaaaaaaaaaaaaaaaaaa "alice" true,
      mkUser 0xbbbbbbbbbbbbbbbbbbbbbbbb "bob" false],
    friendships := [mkFriendship 1 idA idB "accepted" false],
    groups := [], group_members := [], messages := [] }

/-- The fourth driver call of the handler (the sender lookup of `SendPrivateMessage`) fails. -/
def failsSenderLookup : Nat → Bool := fun n => n == 3

/-- The sixth driver call of the handler (the member query of `SendGroupMessage`) fails. -/
def failsMemberQuery : Nat → Bool := fun n => n == 5

/-- Three unread private messages from A to B, with the ids 1, 2 and 3. -/
def dbMessages : Store :=
  { db0 with messages := [mkPrivate 1 idA idB "one" false, mkPrivate 2 idA idB "two" false,
      mkPrivate 3 idA idB "three" false] }

/-- The id list of the scenario: the ids 1 and 2, with a malformed entry between them. -/
def idsMixed : List String :=
  ["000000000000000000000001", "not-a-hex", "000000000000000000000002"]

/-- A private message record with its timestamp. -/
def mkPrivateAt (id : ObjectID) (senderID receiverID content : String) (timestamp : Nat) :
    Message :=
  { ID := id, Type_ := MessageTypePrivate, SenderID := senderID, ReceiverID := receiverID,
    GroupID := "", Content := content, Timestamp := timestamp, Read := false }

/-- A group message record with its timestamp. -/
def mkGroupAt (id : ObjectID) (senderID groupID content : String) (timestamp : Nat) : Message :=
  { ID := id, Type_ := MessageTypeGroup, SenderID := senderID, ReceiverID := "",
    GroupID := groupID, Content := content, Timestamp := timestamp, Read := false }

/-- A history stored out of order: private messages between A and B at the times 30, 10 and
20, a private message of C to A, and group messages to G at the times 25 and 15. -/
def dbHistory : Store :=
  { db0 with messages := [mkPrivateAt 1 idA idB "p30" 30, mkPrivateAt 2 idB idA "p10" 10,
      mkGroupAt 3 idA idG "g25" 25, mkPrivateAt 4 idA idB "p20" 20,
      mkPrivateAt 5 idC idA "other" 12, mkGroupAt 6 idB idG "g15" 15] }

/-- Two private messages of A to B and two group messages to G, each pair stored with one
timestamp. -/
def dbTies : Store :=
  { db0 with messages := [mkPrivateAt 1 idA idB "first" 5, mkPrivateAt 2 idA idB "second" 5,
      mkGroupAt 3 idA idG "first" 7, mkGroupAt 4 idA idG "second" 7] }

/-- The server keeps the natural order among equal timestamps. -/
def rankNatural : Message → Nat := fun _ => 0

/-- The server yields the later documents first among equal timestamps. -/
def rankLaterFirst : Message → Nat := fun m => 10 - m.ID.val

/-- The database after A's private message to B, A's group message to G, and a read receipt
for the private message, from `db0`. -/
def dbAfterSends : Store :=
  (controllers.MarkMessagesAsRead noFaults
    (controllers.SendGroupMessage noFaults env0
      (controllers.SendPrivateMessage noFaults env0 db0 idA ⟨idB, "hello"⟩).db
      idA ⟨idG, "hi"⟩).db
    ⟨some ["000000000000000000000777"]⟩).db

/-- Users A, B and C with the accepted edges (A, B) and (A, C). -/
def dbEdges : Store :=
  { db0 with friendships := [mkFriendship 1 idA idB "accepted" false,
      mkFriendship 2 idA idC "accepted" false] }

/-- The record of the edge 2 of `dbEdges` with its friend changed from C to B. -/
def edgeMoved : Friendship := mkFriendship 2 idA idB "accepted" false

/-! ## Lemmas on the hexadecimal form -/

theorem fromHexChar_hexDigit (d : Nat) (h : d < 16) : fromHexChar (hexDigit d) = some d := by
  interval_cases d <;> decide

theorem decodeHex_snoc (cs : List Char) (c : Char) :
    decodeHex (cs ++ [c]) =
      (decodeHex cs).bind (fun acc => (fromHexChar c).map (fun d => acc * 16 + d)) := by
  unfold decodeHex
  rw [List.foldlM_append]
  cases List.foldlM (fun acc c => (fromHexChar c).map (fun d => acc * 16 + d)) 0 cs with
  | none => rfl
  | some v =>
    simp only [List.foldlM_cons, List.foldlM_nil]
    cases fromHexChar c <;> rfl

theorem length_encodeHex (k n : Nat) : (encodeHex k n).length = k := by
  induction k generalizing n with
  | zero => rfl
  | succ k ih => simp [encodeHex, ih]

theorem decodeHex_encodeHex (k n : Nat) : decodeHex (encodeHex k n) = some (n % 16 ^ k) := by
  induction k generalizing n with
  | zero => simp [encodeHex, decodeHex, Nat.mod_one]
  | succ k ih =>
    rw [encodeHex, decodeHex_snoc, ih, fromHexChar_hexDigit _ (Nat.mod_lt _ (by decide))]
    simp only [Option.some_bind, Option.map_some']
    congr 1
    rw [pow_succ, Nat.mul_comm (16 ^ k) 16, Nat.mod_mul]
    omega

/-- Decoding the hexadecimal form of an ObjectID gives it back. -/
theorem ObjectIDFromHex_Hex (id : ObjectID) : ObjectIDFromHex id.Hex = some id := by
  have h16 : (16 : Nat) ^ 24 = 2 ^ 96 := by norm_num
  have hlen : (String.mk (encodeHex 24 id.val)).length = 24 := length_encodeHex 24 id.val
  have hval : id.val % 16 ^ 24 % 2 ^ 96 = id.val := by
    rw [h16, Nat.mod_mod, Nat.mod_eq_of_lt id.isLt]
  unfold ObjectIDFromHex ObjectID.Hex
  rw [if_pos hlen, decodeHex_encodeHex, Option.map_some']
  exact congrArg some (Fin.ext hval)

/-! ## Lemmas on the model functions -/

theorem ObjectIDFromHex_empty : ObjectIDFromHex "" = none := by decide

theorem ne_empty_of_UserExists {db : Store} {id : String} (h : UserExists db id) : id ≠ "" := by
  rintro rfl
  obtain ⟨u, -, hu, -⟩ := h
  rw [ObjectIDFromHex_empty] at hu
  cases hu

theorem GetUserByID_ok_of_exists {db : Store} {id : String} (h : UserExists db id) :
    ∃ u, models.GetUserByID false db id = .ok u := by
  obtain ⟨u, hu, hid, hdel⟩ := h
  unfold models.GetUserByID
  rw [hid]
  simp only [Bool.false_eq_true, if_false]
  cases hf : db.users.find? (fun v => v.ID == u.ID && v.Deleted == false) with
  | none =>
    rw [List.find?_eq_none] at hf
    have := hf u hu
    simp [hdel] at this
  | some v => exact ⟨v, rfl⟩

theorem GetUserByID_error_of_not_exists {db : Store} {id : String} (h : ¬ UserExists db id)
    (err : Bool) : ∃ e, models.GetUserByID err db id = .error e := by
  unfold models.GetUserByID
  cases hid : ObjectIDFromHex id with
  | none => exact ⟨_, rfl⟩
  | some o =>
    cases err with
    | true => exact ⟨_, rfl⟩
    | false =>
      simp only [Bool.false_eq_true, if_false]
      cases hf : db.users.find? (fun v => v.ID == o && v.Deleted == false) with
      | none => exact ⟨_, rfl⟩
      | some v =>
        exfalso
        apply h
        have hm := List.mem_of_find?_eq_some hf
        have hp := List.find?_some hf
        simp only [Bool.and_eq_true, beq_iff_eq] at hp
        exact ⟨v, hm, by rw [hid, hp.1], hp.2⟩

/-- The loop that sets `isFriend` finds an edge exactly when an accepted edge exists. -/
theorem isFriend_iff (db : Store) (a b : String) :
    ((db.friendships.filter (fun f =>
        (f.UserID == a || f.FriendID == a) && f.Deleted == false
          && (("accepted" : String) == "" || f.Status == "accepted"))).any (fun friendship =>
        (friendship.UserID == a && friendship.FriendID == b) ||
        (friendship.UserID == b && friendship.FriendID == a))) = true ↔ AcceptedEdge db a b := by
  have hne : (("accepted" : String) == "") = false := by decide
  simp only [hne, Bool.false_or, List.any_eq_true, List.mem_filter, Bool.and_eq_true,
    Bool.or_eq_true, beq_iff_eq, AcceptedEdge]
  constructor
  · rintro ⟨f, ⟨hf, ⟨-, hd⟩, hs⟩, h⟩
    exact ⟨f, hf, hd, hs, h⟩
  · rintro ⟨f, hf, hd, hs, h⟩
    refine ⟨f, ⟨hf, ⟨?_, hd⟩, hs⟩, h⟩
    rcases h with ⟨h1, -⟩ | ⟨-, h2⟩
    · exact Or.inl h1
    · exact Or.inr h2

/-! ## Private send: the authorization stage -/

theorem GetFriendships_false (db : Store) (userID status : String) :
    models.GetFriendships false db userID status =
      .ok (db.friendships.filter (fun f =>
        (f.UserID == userID || f.FriendID == userID) && f.Deleted == false
          && (status == "" || f.Status == status))) := rfl

/-- C1 (amended): without an accepted edge between sender and receiver, `SendPrivateMessage`
creates no Message row and calls `Hub.SendToUser` zero times, whatever the request and the
store errors; and when the receiver exists, the content is not empty and the receiver lookup
and the friendship query return without a store error, it answers Forbidden (403). -/
theorem C1_private_send_without_edge (fails : Nat → Bool) (env : Env) (db : Store)
    (senderID : String) (req : controllers.SendPrivateMessageRequest)
    (hedge : ¬ AcceptedEdge db senderID req.ReceiverID) :
    (controllers.SendPrivateMessage fails env db senderID req).db = db ∧
    (controllers.SendPrivateMessage fails env db senderID req).sent = [] ∧
    (req.Content ≠ "" → UserExists db req.ReceiverID → fails 0 = false → fails 1 = false →
      (controllers.SendPrivateMessage fails env db senderID req).resp =
        .json http.StatusForbidden (.error "您不是该用户的好友")) := by
  have hfr := (isFriend_iff db senderID req.ReceiverID).not.mpr hedge
  rw [Bool.not_eq_true] at hfr
  unfold controllers.SendPrivateMessage
  cases hb : (req.ReceiverID == "" || req.Content == "") with
  | true =>
    refine ⟨rfl, rfl, fun hc hu _ _ => ?_⟩
    have := ne_empty_of_UserExists hu
    simp_all
  | false =>
    simp only [Bool.false_eq_true, if_false]
    cases hu : models.GetUserByID (fails 0) db req.ReceiverID with
    | error e =>
      refine ⟨rfl, rfl, fun _ hex h0 _ => ?_⟩
      obtain ⟨u, hu2⟩ := GetUserByID_ok_of_exists hex
      rw [h0, hu2] at hu
      cases hu
    | ok u =>
      cases h1 : fails 1 with
      | true => exact ⟨rfl, rfl, fun _ _ _ h => by cases h⟩
      | false =>
        simp only [GetFriendships_false]
        rw [hfr]
        exact ⟨rfl, rfl, fun _ _ _ _ => rfl⟩

/-- C1 (witness): in `db0`, A and C are not friends and C exists: A's message to C is answered
Forbidden, nothing is stored and nothing is sent. -/
theorem C1_private_send_without_edge_witness :
    ¬ AcceptedEdge db0 idA idC ∧
    (controllers.SendPrivateMessage noFaults env0 db0 idA ⟨idC, "hi"⟩).db = db0 ∧
    (controllers.SendPrivateMessage noFaults env0 db0 idA ⟨idC, "hi"⟩).sent = [] ∧
    (controllers.SendPrivateMessage noFaults env0 db0 idA ⟨idC, "hi"⟩).resp =
      .json http.StatusForbidden (.error "您不是该用户的好友") :=
  have h := C1_private_send_without_edge noFaults env0 db0 idA ⟨idC, "hi"⟩ (by decide)
  ⟨by decide, h.1, h.2.1, h.2.2 (by decide) (by decide) rfl rfl⟩

/-- C1 (counterexample): the claim promises Forbidden for every pair without an accepted edge
and any content. In `db0` there is no edge between A and the id `idD`, which names no user: the
answer is NotFound (404); and there is no edge between A and C, yet an empty content is
answered BadRequest (400). -/
theorem C1_counterexample :
    (¬ AcceptedEdge db0 idA idD ∧
      (controllers.SendPrivateMessage noFaults env0 db0 idA ⟨idD, "hi"⟩).resp =
        .json http.StatusNotFound (.error "接收者不存在") ∧
      (controllers.SendPrivateMessage noFaults env0 db0 idA ⟨idD, "hi"⟩).resp.status ≠
        some http.StatusForbidden) ∧
    (¬ AcceptedEdge db0 idA idC ∧
      (controllers.SendPrivateMessage noFaults env0 db0 idA ⟨idC, ""⟩).resp =
        .json http.StatusBadRequest (.error "请求参数无效") ∧
      (controllers.SendPrivateMessage noFaults env0 db0 idA ⟨idC, ""⟩).resp.status ≠
        some http.StatusForbidden) := by
  decide

/-! ## Group send: the authorization stage -/

theorem ObjectIDFromHex_some_ne_empty {id : String} {o : ObjectID}
    (h : ObjectIDFromHex id = some o) : id ≠ "" := by
  rintro rfl
  rw [ObjectIDFromHex_empty] at h
  cases h

theorem GetGroupByID_ok_of_exists {db : Store} {id : String} (h : GroupExists db id) :
    ∃ g, models.GetGroupByID false db id = .ok g := by
  obtain ⟨g, hg, hid, hdel⟩ := h
  unfold models.GetGroupByID
  rw [hid]
  simp only [Bool.false_eq_true, if_false]
  cases hf : db.groups.find? (fun v => v.ID == g.ID && v.Deleted == false) with
  | none =>
    rw [List.find?_eq_none] at hf
    have := hf g hg
    simp [hdel] at this
  | some v => exact ⟨v, rfl⟩

/-- Every group that `GetUserGroups` returns is one in which the user holds a non-deleted
membership. -/
theorem GetUserGroups_membership {db : Store} {e1 e2 : Bool} {userID : String}
    {gs : List Group} (h : models.GetUserGroups e1 e2 db userID = .ok gs) :
    ∀ g ∈ gs, GroupMembership db userID g.ID.Hex := by
  intro g hg
  unfold models.GetUserGroups at h
  split at h
  · cases h
  · simp only at h
    split at h
    · cases h
      cases hg
    · split at h
      · cases h
      · cases h
        simp only [List.mem_filter, Bool.and_eq_true, List.contains_iff_exists_mem_beq,
          List.mem_filterMap, beq_iff_eq] at hg
        obtain ⟨-, ⟨o, ⟨m, ⟨hm, hmu, hmd⟩, hmo⟩, hgo⟩, -⟩ := hg
        refine ⟨m, hm, hmu, hmd, o, hmo, ?_⟩
        rw [hgo, ObjectIDFromHex_Hex]

/-- C2 (amended): when the sender holds no non-deleted membership in the group, `SendGroupMessage`
creates no Message row and calls `Hub.SendToUser` zero times, whatever the request and the
store errors; and when the group exists, the content is not empty and the group lookup and the
membership lookup return without a store error, it answers Forbidden (403). -/
theorem C2_group_send_without_membership (fails : Nat → Bool) (env : Env) (db : Store)
    (senderID : String) (req : controllers.SendGroupMessageRequest)
    (hmem : ¬ GroupMembership db senderID req.GroupID) :
    (controllers.SendGroupMessage fails env db senderID req).db = db ∧
    (controllers.SendGroupMessage fails env db senderID req).sent = [] ∧
    (req.Content ≠ "" → GroupExists db req.GroupID → fails 0 = false →
      (∃ gs, models.GetUserGroups (fails 1) (fails 2) db senderID = .ok gs) →
      (controllers.SendGroupMessage fails env db senderID req).resp =
        .json http.StatusForbidden (.error "您不是该群组的成员")) := by
  unfold controllers.SendGroupMessage
  cases hb : (req.GroupID == "" || req.Content == "") with
  | true =>
    refine ⟨rfl, rfl, fun hc hg _ _ => ?_⟩
    obtain ⟨g, -, hgo, -⟩ := hg
    have := ObjectIDFromHex_some_ne_empty hgo
    simp_all
  | false =>
    simp only [Bool.false_eq_true, if_false]
    cases hg : models.GetGroupByID (fails 0) db req.GroupID with
    | error e =>
      refine ⟨rfl, rfl, fun _ hex h0 _ => ?_⟩
      obtain ⟨g, hg2⟩ := GetGroupByID_ok_of_exists hex
      rw [h0, hg2] at hg
      cases hg
    | ok g =>
      cases hgs : models.GetUserGroups (fails 1) (fails 2) db senderID with
      | error e => exact ⟨rfl, rfl, fun _ _ _ h => by obtain ⟨gs, h⟩ := h; cases h⟩
      | ok gs =>
        have hno : gs.any (fun g => g.ID.Hex == req.GroupID) = false := by
          rw [Bool.eq_false_iff]
          intro hany
          rw [List.any_eq_true] at hany
          obtain ⟨g2, hg2, heq⟩ := hany
          rw [beq_iff_eq] at heq
          exact hmem (heq ▸ GetUserGroups_membership hgs g2 hg2)
        simp only [hno]
        exact ⟨rfl, rfl, fun _ _ _ _ => rfl⟩

/-- C2 (witness): in `db0` the id `idD` names a user without membership in G, and G exists: the
message is answered Forbidden, nothing is stored and nothing is sent. -/
theorem C2_group_send_without_membership_witness :
    ¬ GroupMembership db0 idD idG ∧
    (controllers.SendGroupMessage noFaults env0 db0 idD ⟨idG, "hi"⟩).db = db0 ∧
    (controllers.SendGroupMessage noFaults env0 db0 idD ⟨idG, "hi"⟩).sent = [] ∧
    (controllers.SendGroupMessage noFaults env0 db0 idD ⟨idG, "hi"⟩).resp =
      .json http.StatusForbidden (.error "您不是该群组的成员") :=
  have h := C2_group_send_without_membership noFaults env0 db0 idD ⟨idG, "hi"⟩ (by decide)
  ⟨by decide, h.1, h.2.1, h.2.2 (by decide) (by decide) rfl ⟨[], rfl⟩⟩

/-- C2 (counterexample): the claim promises Forbidden whenever the sender has no membership.
In `db0` user A has no membership in the group named `idD`, which does not exist: the answer is
NotFound (404); and `idD` has no membership in G, yet an empty content is answered
BadRequest (400). -/
theorem C2_counterexample :
    (¬ GroupMembership db0 idA idD ∧
      (controllers.SendGroupMessage noFaults env0 db0 idA ⟨idD, "hi"⟩).resp =
        .json http.StatusNotFound (.error "群组不存在") ∧
      (controllers.SendGroupMessage noFaults env0 db0 idA ⟨idD, "hi"⟩).resp.status ≠
        some http.StatusForbidden) ∧
    (¬ GroupMembership db0 idD idG ∧
      (controllers.SendGroupMessage noFaults env0 db0 idD ⟨idG, ""⟩).resp =
        .json http.StatusBadRequest (.error "请求参数无效") ∧
      (controllers.SendGroupMessage noFaults env0 db0 idD ⟨idG, ""⟩).resp.status ≠
        some http.StatusForbidden) := by
  decide

/-! ## Private send: persistence and delivery -/

theorem GetFriendships_ok {db : Store} {e : Bool} {userID status : String}
    {fs : List Friendship} (h : models.GetFriendships e db userID status = .ok fs) :
    e = false := by
  cases e with
  | false => rfl
  | true => cases h

theorem SavePrivateMessage_ok {db : Store} {e : Bool} {env : Env}
    {senderID receiverID content : String} {p : Message × Store}
    (h : models.SavePrivateMessage e env db senderID receiverID content = .ok p) :
    e = false := by
  cases e with
  | false => rfl
  | true => cases h

/-- The run of `SendPrivateMessage` when, besides the receiver and the accepted edge, the
sender's own user record is found after the insertion (the last conjunct of
`PrivateStoreOperationsSucceed`): the answer is 200 with the persisted message, exactly that
message (type private, the sender, the receiver, the content, unread) is appended, and
`Hub.SendToUser` is called once, for the receiver, with an envelope whose
`data.message.content` is the content. -/
theorem SendPrivateMessage_succeeds (fails : Nat → Bool) (env : Env) (db : Store)
    (senderID : String) (req : controllers.SendPrivateMessageRequest)
    (hrecv : UserExists db req.ReceiverID)
    (hedge : AcceptedEdge db senderID req.ReceiverID)
    (hstore : PrivateStoreOperationsSucceed fails env db senderID req)
    (hcontent : req.Content ≠ "") :
    ∃ (m : Message) (payload : JSON),
      m = { ID := env.newID, Type_ := "private", SenderID := senderID,
            ReceiverID := req.ReceiverID, GroupID := "", Content := req.Content,
            Timestamp := env.now, Read := false } ∧
      (controllers.SendPrivateMessage fails env db senderID req).resp =
        .json http.StatusOK (.sent "消息发送成功" m) ∧
      (controllers.SendPrivateMessage fails env db senderID req).db =
        { db with messages := db.messages ++ [m] } ∧
      (controllers.SendPrivateMessage fails env db senderID req).sent =
        [(req.ReceiverID, payload)] ∧
      payload.path ["data", "message", "content"] = some (.str req.Content) := by
  obtain ⟨⟨r, hr⟩, ⟨fs, hfs⟩, ⟨p, hp⟩, ⟨u, hu⟩⟩ := hstore
  have h1 := GetFriendships_ok hfs
  have h2 := SavePrivateMessage_ok hp
  have hfr := (isFriend_iff db senderID req.ReceiverID).mpr hedge
  have hb : (req.ReceiverID == "" || req.Content == "") = false := by
    have := ne_empty_of_UserExists hrecv
    simp_all
  refine ⟨_, .obj [("data", controllers.privateEnvelope
    { ID := env.newID, Type_ := "private", SenderID := senderID,
      ReceiverID := req.ReceiverID, GroupID := "", Content := req.Content,
      Timestamp := env.now, Read := false } u senderID req)], rfl, ?_⟩
  unfold controllers.SendPrivateMessage
  simp only [hb, Bool.false_eq_true, if_false, hr, h1, GetFriendships_false]
  rw [hfr]
  simp only [h2, models.SavePrivateMessage, Bool.not_true, Bool.false_eq_true, if_false]
  have hu2 : ∀ msgs, models.GetUserByID (fails 3) { db with messages := msgs } senderID
      = .ok u := fun _ => hu
  rw [hu2]
  exact ⟨rfl, rfl, rfl, rfl⟩

/-- C3 (the code at the failing input): in `dbSenderDeleted` the receiver B exists and is not
soft-deleted, a non-deleted accepted edge (A, B) is stored, the content "hello" is not empty
and the store answers every call: the receiver lookup returns B, the friendship query returns
the edge, the insertion returns the message, and the lookup of the sender A, whose record is
soft-deleted, finds no document. The handler does not answer 200: it ends in the nil pointer
dereference of `sender.ID`, with the message stored and no call of `Hub.SendToUser`. -/
theorem C3_sender_record_missing_aborts :
    UserExists dbSenderDeleted idB ∧
    AcceptedEdge dbSenderDeleted idA idB ∧
    (controllers.SendPrivateMessageRequest.mk idB "hello").Content ≠ "" ∧
    models.GetUserByID (noFaults 0) dbSenderDeleted idB =
      .ok (mkUser 0xbbbbbbbbbbbbbbbbbbbbbbbb "bob" false) ∧
    models.GetFriendships (noFaults 1) dbSenderDeleted idA "accepted" =
      .ok [mkFriendship 1 idA idB "accepted" false] ∧
    (∃ p, models.SavePrivateMessage (noFaults 2) env0 dbSenderDeleted idA idB "hello"
      = .ok p) ∧
    models.GetUserByID (noFaults 3) dbSenderDeleted idA = .error .ErrNoDocuments ∧
    (controllers.SendPrivateMessage noFaults env0 dbSenderDeleted idA ⟨idB, "hello"⟩).resp
      = .nilDereference ∧
    (controllers.SendPrivateMessage noFaults env0 dbSenderDeleted idA ⟨idB, "hello"⟩).resp.status
      ≠ some http.StatusOK ∧
    (controllers.SendPrivateMessage noFaults env0 dbSenderDeleted idA ⟨idB, "hello"⟩).db.messages
      = [{ ID := 0x777, Type_ := "private", SenderID := idA, ReceiverID := idB,
           GroupID := "", Content := "hello", Timestamp := 1000, Read := false }] ∧
    (controllers.SendPrivateMessage noFaults env0 dbSenderDeleted idA
      ⟨idB, "hello"⟩).sent.length = 0 :=
  ⟨by decide, by decide, by decide, rfl, rfl, ⟨_, rfl⟩, rfl, by decide, by decide, by decide,
    by decide⟩

/-! ## Group send: persistence and fan-out -/

theorem fanOut_targets (senderID : String) (wsMessage : JSON) (members : List GroupMember) :
    (controllers.fanOut senderID wsMessage members).map Prod.fst =
      (members.filter (fun m => m.UserID != senderID)).map (fun m => m.UserID) := by
  induction members with
  | nil => rfl
  | cons m ms ih =>
    simp only [controllers.fanOut, json_Marshal, bne_iff_ne, ne_eq, ite_not] at ih ⊢
    by_cases h : m.UserID = senderID
    · simp [List.filterMap_cons, List.filter_cons, h, ih]
    · simp [List.filterMap_cons, List.filter_cons, h, ih]

/-- What a run of `SendGroupMessage` that answers 200 went through. -/
theorem SendGroupMessage_ok_inv (fails : Nat → Bool) (env : Env) (db : Store)
    (senderID : String) (req : controllers.SendGroupMessageRequest)
    (hok : (controllers.SendGroupMessage fails env db senderID req).resp.status
      = some http.StatusOK) :
    ∃ (message : Message) (db1 : Store) (sender : User) (members : List GroupMember),
      models.SaveGroupMessage (fails 3) env db senderID req.GroupID req.Content
        = .ok (message, db1) ∧
      models.GetUserByID (fails 4) db1 senderID = .ok sender ∧
      models.GetGroupMembers (fails 5) db1 req.GroupID = .ok members ∧
      controllers.SendGroupMessage fails env db senderID req =
        ⟨.json http.StatusOK (.sent "消息发送成功" message), db1,
          controllers.fanOut senderID (controllers.groupEnvelope message sender senderID req)
            members⟩ := by
  unfold controllers.SendGroupMessage at hok ⊢
  cases hb : (req.GroupID == "" || req.Content == "") with
  | true => simp [hb, Outcome.status, http.StatusOK, http.StatusBadRequest] at hok
  | false =>
    rw [hb] at hok
    simp only [Bool.false_eq_true, if_false] at hok ⊢
    cases hg : models.GetGroupByID (fails 0) db req.GroupID with
    | error e => simp [hg, Outcome.status, http.StatusOK, http.StatusNotFound] at hok
    | ok g =>
      rw [hg] at hok
      simp only at hok ⊢
      cases hgs : models.GetUserGroups (fails 1) (fails 2) db senderID with
      | error e =>
        simp [hgs, Outcome.status, http.StatusOK, http.StatusInternalServerError] at hok
      | ok gs =>
        rw [hgs] at hok
        simp only at hok ⊢
        cases hm : gs.any (fun g => g.ID.Hex == req.GroupID) with
        | false => simp [hm, Outcome.status, http.StatusOK, http.StatusForbidden] at hok
        | true =>
          rw [hm] at hok
          simp only [Bool.not_true, Bool.false_eq_true, if_false] at hok ⊢
          cases hs : models.SaveGroupMessage (fails 3) env db senderID req.GroupID
              req.Content with
          | error e =>
            simp [hs, Outcome.status, http.StatusOK, http.StatusInternalServerError] at hok
          | ok p =>
            obtain ⟨message, db1⟩ := p
            rw [hs] at hok
            simp only at hok ⊢
            cases hu : models.GetUserByID (fails 4) db1 senderID with
            | error e => simp [hu, Outcome.status] at hok
            | ok sender =>
              rw [hu] at hok
              simp only at hok ⊢
              cases hms : models.GetGroupMembers (fails 5) db1 req.GroupID with
              | error e =>
                simp [hms, Outcome.status, http.StatusOK, http.StatusInternalServerError]
                  at hok
              | ok members => exact ⟨message, db1, sender, members, rfl, hu, hms, rfl⟩

theorem SaveGroupMessage_members {db db1 : Store} {e : Bool} {env : Env}
    {senderID groupID content : String} {message : Message}
    (h : models.SaveGroupMessage e env db senderID groupID content = .ok (message, db1)) :
    db1.group_members = db.group_members ∧ db1.users = db.users := by
  unfold models.SaveGroupMessage at h
  cases e with
  | true => cases h
  | false =>
    simp only [Bool.false_eq_true, if_false, Except.ok.injEq, Prod.mk.injEq] at h
    rw [← h.2]
    exact ⟨rfl, rfl⟩

theorem GetGroupMembers_ok {db : Store} {e : Bool} {groupID : String}
    {members : List GroupMember} (h : models.GetGroupMembers e db groupID = .ok members) :
    e = false ∧
      members = db.group_members.filter (fun m => m.GroupID == groupID && m.Deleted == false) := by
  cases e with
  | true => cases h
  | false =>
    simp only [models.GetGroupMembers, Bool.false_eq_true, if_false, Except.ok.injEq] at h
    exact ⟨rfl, h.symm⟩

/-- C4: whenever `SendGroupMessage` answers 200, the targets of its `Hub.SendToUser` calls are,
in stored order, the user ids of the membership records of the group that are not
soft-deleted and are not the sender's: `GetGroupMembers` returns exactly the records of the
collection with the group id of the request and `deleted = false`, and the handler makes one
call for each of them whose user id differs from the sender's, none for the sender, and no
other call. The handler reads no connection state, so live connections play no part. -/
theorem C4_fanout_completeness (fails : Nat → Bool) (env : Env) (db : Store)
    (senderID : String) (req : controllers.SendGroupMessageRequest)
    (hok : (controllers.SendGroupMessage fails env db senderID req).resp.status
      = some http.StatusOK) :
    ∃ members, models.GetGroupMembers false db req.GroupID = .ok members ∧
      members = db.group_members.filter
        (fun m => decide (m.GroupID = req.GroupID ∧ m.Deleted = false)) ∧
      (controllers.SendGroupMessage fails env db senderID req).sent.map Prod.fst =
        (members.filter (fun m => m.UserID != senderID)).map (fun m => m.UserID) ∧
      (controllers.SendGroupMessage fails env db senderID req).sent.map Prod.fst =
        (db.group_members.filter (fun m => decide
          (m.GroupID = req.GroupID ∧ m.Deleted = false ∧ m.UserID ≠ senderID))).map
          (fun m => m.UserID) ∧
      (controllers.SendGroupMessage fails env db senderID req).sent.length =
        (db.group_members.filter (fun m => decide
          (m.GroupID = req.GroupID ∧ m.Deleted = false ∧ m.UserID ≠ senderID))).length ∧
      senderID ∉ (controllers.SendGroupMessage fails env db senderID req).sent.map Prod.fst := by
  obtain ⟨message, db1, sender, members, hs, -, hms, hrun⟩ :=
    SendGroupMessage_ok_inv fails env db senderID req hok
  obtain ⟨-, hmem⟩ := GetGroupMembers_ok hms
  rw [(SaveGroupMessage_members hs).1] at hmem
  have hspec : members = db.group_members.filter
      (fun m => decide (m.GroupID = req.GroupID ∧ m.Deleted = false)) := by
    rw [hmem]
    apply List.filter_congr
    intro m _
    rw [Bool.eq_iff_iff]
    simp
  have htargets := fanOut_targets senderID
    (controllers.groupEnvelope message sender senderID req) members
  have hothers : (members.filter (fun m => m.UserID != senderID)).map (fun m => m.UserID) =
      (db.group_members.filter (fun m => decide
        (m.GroupID = req.GroupID ∧ m.Deleted = false ∧ m.UserID ≠ senderID))).map
        (fun m => m.UserID) := by
    rw [hspec, List.filter_filter]
    congr 1
    apply List.filter_congr
    intro m _
    rw [Bool.eq_iff_iff]
    simp only [Bool.and_eq_true, bne_iff_ne, ne_eq, decide_eq_true_eq]
    tauto
  have hsent : (controllers.SendGroupMessage fails env db senderID req).sent.map Prod.fst =
      (members.filter (fun m => m.UserID != senderID)).map (fun m => m.UserID) := by
    rw [hrun]; exact htargets
  refine ⟨members, ?_, hspec, hsent, hsent.trans hothers, ?_, ?_⟩
  · rw [hmem]; rfl
  · have hlen := congrArg List.length (hsent.trans hothers)
    rw [List.length_map, List.length_map] at hlen
    exact hlen
  · rw [hsent]
    simp

/-- C4 (witness): in `dbGroupMixed` the non-deleted members of G are A (admin), B and C, and
the collection also holds soft-deleted memberships in G and a membership in another group; a
message of A makes exactly two calls, to B and to C. -/
theorem C4_fanout_completeness_witness :
    (controllers.SendGroupMessage noFaults env0 dbGroupMixed idA ⟨idG, "hi"⟩).resp.status
      = some http.StatusOK ∧
    (controllers.SendGroupMessage noFaults env0 dbGroupMixed idA ⟨idG, "hi"⟩).sent.map Prod.fst
      = [idB, idC] ∧
    (controllers.SendGroupMessage noFaults env0 dbGroupMixed idA ⟨idG, "hi"⟩).sent.length
      = 2 := by
  have hok : (controllers.SendGroupMessage noFaults env0 dbGroupMixed idA
      ⟨idG, "hi"⟩).resp.status = some http.StatusOK := by decide
  obtain ⟨members, -, -, -, htargets, hlen, -⟩ :=
    C4_fanout_completeness noFaults env0 dbGroupMixed idA ⟨idG, "hi"⟩ hok
  refine ⟨hok, ?_, ?_⟩
  · rw [htargets]
    decide
  · rw [hlen]
    decide

/-! ## Private send: the receiver lookup -/

/-- C5 (amended): for a request with a non-empty receiver id and a non-empty content, when the
receiver id is not the id of an existing, not soft-deleted user (malformed ids and ids of
deleted users included), `SendPrivateMessage` answers NotFound (404), leaves the database as
it was and calls `Hub.SendToUser` zero times, whatever the friendship edges and the store
errors. -/
theorem C5_receiver_not_found (fails : Nat → Bool) (env : Env) (db : Store)
    (senderID : String) (req : controllers.SendPrivateMessageRequest)
    (hid : req.ReceiverID ≠ "") (hcontent : req.Content ≠ "")
    (hno : ¬ UserExists db req.ReceiverID) :
    controllers.SendPrivateMessage fails env db senderID req =
      ⟨.json http.StatusNotFound (.error "接收者不存在"), db, []⟩ := by
  obtain ⟨e, he⟩ := GetUserByID_error_of_not_exists hno (fails 0)
  have hb : (req.ReceiverID == "" || req.Content == "") = false := by simp_all
  unfold controllers.SendPrivateMessage
  simp only [hb, Bool.false_eq_true, if_false, he]

/-- C5 (witness): in `dbSenderDeleted` the user A is soft-deleted and an accepted edge joins
A and B; B's message to A is answered NotFound although the edge exists. -/
theorem C5_receiver_not_found_witness :
    AcceptedEdge dbSenderDeleted idB idA ∧ ¬ UserExists dbSenderDeleted idA ∧
    controllers.SendPrivateMessage noFaults env0 dbSenderDeleted idB ⟨idA, "hi"⟩ =
      ⟨.json http.StatusNotFound (.error "接收者不存在"), dbSenderDeleted, []⟩ :=
  ⟨by decide, by decide,
    C5_receiver_not_found noFaults env0 dbSenderDeleted idB ⟨idA, "hi"⟩ (by decide)
      (by decide) (by decide)⟩

/-- C5 (counterexample): the empty string is a receiver id that names no user (it is not 24
hexadecimal digits), and the request that carries it is answered BadRequest (400), not
NotFound: the binding of the request rejects it before the lookup. -/
theorem C5_counterexample :
    ¬ UserExists db0 "" ∧ ObjectIDFromHex "" = none ∧
    (controllers.SendPrivateMessage noFaults env0 db0 idA ⟨"", "hi"⟩).resp =
      .json http.StatusBadRequest (.error "请求参数无效") ∧
    (controllers.SendPrivateMessage noFaults env0 db0 idA ⟨"", "hi"⟩).resp.status ≠
      some http.StatusNotFound := by
  decide

/-! ## Private send: after the insertion -/

/-- C6 (the code at the failing input): in `db0`, A sends "hello" to the friend B and the store
fails on the sender lookup only. The insertion succeeds and the message is in the database,
but the lookup returns no user and the handler ends in the nil pointer dereference of
`sender.ID`: no status 200 and no call of `Hub.SendToUser`. The same happens with a store that
answers every call when the sender's record is soft-deleted (`dbSenderDeleted`). -/
theorem C6_sender_lookup_failure_aborts :
    ((∃ p, models.SavePrivateMessage (failsSenderLookup 2) env0 db0 idA idB "hello" = .ok p) ∧
      (controllers.SendPrivateMessage failsSenderLookup env0 db0 idA ⟨idB, "hello"⟩).resp
        = .nilDereference ∧
      (controllers.SendPrivateMessage failsSenderLookup env0 db0 idA ⟨idB, "hello"⟩).resp.status
        ≠ some http.StatusOK ∧
      (controllers.SendPrivateMessage failsSenderLookup env0 db0 idA ⟨idB, "hello"⟩).db.messages
        = [{ ID := 0x777, Type_ := "private", SenderID := idA, ReceiverID := idB,
             GroupID := "", Content := "hello", Timestamp := 1000, Read := false }] ∧
      (controllers.SendPrivateMessage failsSenderLookup env0 db0 idA
        ⟨idB, "hello"⟩).sent.length = 0) ∧
    ((∃ p, models.SavePrivateMessage (noFaults 2) env0 dbSenderDeleted idA idB "hello"
        = .ok p) ∧
      (controllers.SendPrivateMessage noFaults env0 dbSenderDeleted idA ⟨idB, "hello"⟩).resp
        = .nilDereference ∧
      (controllers.SendPrivateMessage noFaults env0 dbSenderDeleted idA
        ⟨idB, "hello"⟩).db.messages.length = 1) :=
  ⟨⟨⟨_, rfl⟩, by decide, by decide, by decide, by decide⟩, ⟨_, rfl⟩, by decide, by decide⟩

/-! ## Group send: failure of the member enumeration -/

/-- C7: when the authorization stage of `SendGroupMessage` passed, the insertion returned the
message, the handler reached the member enumeration (the sender's record was read) and
`GetGroupMembers` returns a store error, the answer is Internal (500), no `Hub.SendToUser`
call is made, and the database is the one the insertion left: the messages before, followed
by the inserted message. -/
theorem C7_member_enumeration_failure (fails : Nat → Bool) (env : Env) (db db1 : Store)
    (senderID : String) (req : controllers.SendGroupMessageRequest) (message : Message)
    (sender : User)
    (hcontent : req.Content ≠ "")
    (hauth : GroupSendAuthorized fails db senderID req)
    (hsave : models.SaveGroupMessage (fails 3) env db senderID req.GroupID req.Content
      = .ok (message, db1))
    (hsender : models.GetUserByID (fails 4) db1 senderID = .ok sender)
    (hmembers : models.GetGroupMembers (fails 5) db1 req.GroupID = .error .driver) :
    (controllers.SendGroupMessage fails env db senderID req).resp =
      .json http.StatusInternalServerError (.error "发送消息失败") ∧
    (controllers.SendGroupMessage fails env db senderID req).sent = [] ∧
    (controllers.SendGroupMessage fails env db senderID req).db = db1 ∧
    (controllers.SendGroupMessage fails env db senderID req).db.messages =
      db.messages ++ [message] := by
  obtain ⟨⟨g, hg⟩, gs, hgs, hmem⟩ := hauth
  have hgid : req.GroupID ≠ "" := by
    intro h0
    rw [h0] at hg
    cases h3 : fails 0 <;> rw [h3] at hg <;> cases hg
  have hb : (req.GroupID == "" || req.Content == "") = false := by simp_all
  have hrun : controllers.SendGroupMessage fails env db senderID req =
      ⟨.json http.StatusInternalServerError (.error "发送消息失败"), db1, []⟩ := by
    unfold controllers.SendGroupMessage
    simp only [hb, Bool.false_eq_true, if_false, hg, hgs, hmem, Bool.not_true, hsave, hsender,
      hmembers]
  have hmsgs : db1.messages = db.messages ++ [message] := by
    unfold models.SaveGroupMessage at hsave
    cases h3 : fails 3 with
    | true => rw [h3] at hsave; cases hsave
    | false =>
      rw [h3] at hsave
      simp only [Bool.false_eq_true, if_false, Except.ok.injEq, Prod.mk.injEq] at hsave
      rw [← hsave.2, ← hsave.1]
  rw [hrun]
  exact ⟨rfl, rfl, rfl, hmsgs⟩

/-- C7 (witness): in `db0`, A sends to group G and the member query fails: 500, no call, and
the message stays in the database. -/
theorem C7_member_enumeration_failure_witness :
    GroupSendAuthorized failsMemberQuery db0 idA ⟨idG, "hi"⟩ ∧
    (controllers.SendGroupMessage failsMemberQuery env0 db0 idA ⟨idG, "hi"⟩).resp =
      .json http.StatusInternalServerError (.error "发送消息失败") ∧
    (controllers.SendGroupMessage failsMemberQuery env0 db0 idA ⟨idG, "hi"⟩).sent = [] ∧
    (controllers.SendGroupMessage failsMemberQuery env0 db0 idA ⟨idG, "hi"⟩).db.messages =
      [{ ID := 0x777, Type_ := "group", SenderID := idA, ReceiverID := "", GroupID := idG,
         Content := "hi", Timestamp := 1000, Read := false }] := by
  have hauth : GroupSendAuthorized failsMemberQuery db0 idA ⟨idG, "hi"⟩ :=
    ⟨⟨_, rfl⟩, _, rfl, by decide⟩
  have h := C7_member_enumeration_failure failsMemberQuery env0 db0 _ idA ⟨idG, "hi"⟩ _ _
    (by decide) hauth rfl rfl rfl
  exact ⟨hauth, h.1, h.2.1, h.2.2.2⟩

/-! ## The read-receipt batch -/

theorem filterMap_filter_isSome (ids : List String) :
    (ids.filter (fun s => (ObjectIDFromHex s).isSome)).filterMap ObjectIDFromHex =
      ids.filterMap ObjectIDFromHex := by
  induction ids with
  | nil => rfl
  | cons s ss ih =>
    cases h : ObjectIDFromHex s with
    | none => simp [List.filter_cons, List.filterMap_cons, h, ih]
    | some o => simp [List.filter_cons, List.filterMap_cons, h, ih]

theorem filterMap_length_pos {ids : List String}
    (h : ∃ s ∈ ids, (ObjectIDFromHex s).isSome) :
    ¬ (ids.filterMap ObjectIDFromHex).length = 0 := by
  obtain ⟨s, hs, hsome⟩ := h
  obtain ⟨o, ho⟩ := Option.isSome_iff_exists.mp hsome
  intro hlen
  have hmem : o ∈ ids.filterMap ObjectIDFromHex := List.mem_filterMap.mpr ⟨s, hs, ho⟩
  rw [List.length_eq_zero] at hlen
  rw [hlen] at hmem
  cases hmem

/-- The run of `MarkMessagesAsRead` on a list that holds a well-formed id, the store
answering. -/
theorem MarkMessagesAsRead_run {ids : List String} (db : Store)
    (h : ∃ s ∈ ids, (ObjectIDFromHex s).isSome) :
    controllers.MarkMessagesAsRead noFaults db ⟨some ids⟩ =
      ⟨.json http.StatusOK (.message "消息已标记为已读"),
        { db with messages := db.messages.map (fun m =>
            if (ids.filterMap ObjectIDFromHex).contains m.ID then { m with Read := true }
            else m) }, []⟩ := by
  unfold controllers.MarkMessagesAsRead
  simp only [if_neg (filterMap_length_pos h), models.MarkMessagesAsRead, noFaults,
    Bool.false_eq_true, if_false]

theorem contains_filterMap_iff (ids : List String) (o : ObjectID) :
    (ids.filterMap ObjectIDFromHex).contains o = true ↔
      ∃ s ∈ ids, ObjectIDFromHex s = some o := by
  simp [List.contains_iff_exists_mem_beq, List.mem_filterMap]

/-- C8: for every id list holding at least one well-formed ObjectID hex string,
`MarkMessagesAsRead`, over a store that answers the update, answers 200; the stored messages
are the same, in the same places, with
every field but `read` unchanged, and a message is read afterwards exactly when it was read
before or its id is spelled by an entry of the list; the malformed entries have no effect (the
run is the run on the list without them); the other collections are unchanged and nothing is
sent. -/
theorem C8_mark_messages_read (db : Store) (ids : List String)
    (hvalid : ∃ s ∈ ids, (ObjectIDFromHex s).isSome) :
    (controllers.MarkMessagesAsRead noFaults db ⟨some ids⟩).resp =
      .json http.StatusOK (.message "消息已标记为已读") ∧
    List.Forall₂ (fun m m2 =>
        m2.ID = m.ID ∧ m2.Type_ = m.Type_ ∧ m2.SenderID = m.SenderID ∧
        m2.ReceiverID = m.ReceiverID ∧ m2.GroupID = m.GroupID ∧ m2.Content = m.Content ∧
        m2.Timestamp = m.Timestamp ∧
        (m2.Read = true ↔ m.Read = true ∨ ∃ s ∈ ids, ObjectIDFromHex s = some m.ID))
      db.messages (controllers.MarkMessagesAsRead noFaults db ⟨some ids⟩).db.messages ∧
    controllers.MarkMessagesAsRead noFaults db ⟨some ids⟩ =
      controllers.MarkMessagesAsRead noFaults db
        ⟨some (ids.filter (fun s => (ObjectIDFromHex s).isSome))⟩ ∧
    (controllers.MarkMessagesAsRead noFaults db ⟨some ids⟩).db.users = db.users ∧
    (controllers.MarkMessagesAsRead noFaults db ⟨some ids⟩).db.friendships = db.friendships ∧
    (controllers.MarkMessagesAsRead noFaults db ⟨some ids⟩).db.groups = db.groups ∧
    (controllers.MarkMessagesAsRead noFaults db ⟨some ids⟩).db.group_members
      = db.group_members ∧
    (controllers.MarkMessagesAsRead noFaults db ⟨some ids⟩).sent = [] := by
  have hvalid2 : ∃ s ∈ ids.filter (fun s => (ObjectIDFromHex s).isSome),
      (ObjectIDFromHex s).isSome := by
    obtain ⟨s, hs, hsome⟩ := hvalid
    exact ⟨s, List.mem_filter.mpr ⟨hs, hsome⟩, hsome⟩
  rw [MarkMessagesAsRead_run db hvalid, MarkMessagesAsRead_run db hvalid2,
    filterMap_filter_isSome]
  refine ⟨rfl, ?_, rfl, rfl, rfl, rfl, rfl, rfl⟩
  simp only
  rw [List.forall₂_map_right_iff]
  apply List.forall₂_same.mpr
  intro m _
  by_cases hc : (ids.filterMap ObjectIDFromHex).contains m.ID = true
  · rw [if_pos hc]
    refine ⟨rfl, rfl, rfl, rfl, rfl, rfl, rfl, ?_⟩
    simp only [true_iff]
    exact Or.inr ((contains_filterMap_iff ids m.ID).mp hc)
  · rw [if_neg hc]
    refine ⟨rfl, rfl, rfl, rfl, rfl, rfl, rfl, ?_⟩
    constructor
    · exact Or.inl
    · rintro (h | h)
      · exact h
      · exact absurd ((contains_filterMap_iff ids m.ID).mpr h) hc

/-- C8 (witness): the scenario of the specification: two well-formed ids around a malformed
one; the messages 1 and 2 become read, message 3 stays unread, the call succeeds. -/
theorem C8_mark_messages_read_witness :
    (∃ s ∈ idsMixed, (ObjectIDFromHex s).isSome) ∧
    (controllers.MarkMessagesAsRead noFaults dbMessages ⟨some idsMixed⟩).resp =
      .json http.StatusOK (.message "消息已标记为已读") ∧
    (controllers.MarkMessagesAsRead noFaults dbMessages ⟨some idsMixed⟩).db.messages.map
      (fun m => (m.ID, m.Read)) = [(1, true), (2, true), (3, false)] := by
  have hv : ∃ s ∈ idsMixed, (ObjectIDFromHex s).isSome := by decide
  exact ⟨hv, (C8_mark_messages_read dbMessages idsMixed hv).1, by decide⟩

theorem filterMap_length_zero {ids : List String}
    (h : ∀ s ∈ ids, ObjectIDFromHex s = none) :
    (ids.filterMap ObjectIDFromHex).length = 0 := by
  rw [List.length_eq_zero, List.filterMap_eq_nil_iff]
  exact h

/-- The run of `MarkMessagesAsRead` on a list without a well-formed id. -/
theorem MarkMessagesAsRead_reject_run (fails : Nat → Bool) (db : Store) {ids : List String}
    (hnone : ∀ s ∈ ids, ObjectIDFromHex s = none) :
    controllers.MarkMessagesAsRead fails db ⟨some ids⟩ =
      ⟨.json http.StatusBadRequest (.error "无效的消息ID"), db, []⟩ := by
  unfold controllers.MarkMessagesAsRead
  simp only [if_pos (filterMap_length_zero hnone)]

/-- C9: for every id list without a well-formed ObjectID hex string, the empty list included,
`MarkMessagesAsRead` answers BadRequest (400) and leaves the database as it was; the answer is
the same when the update would fail, for the update is not reached. An absent list is answered
BadRequest as well. -/
theorem C9_mark_messages_read_rejects (fails : Nat → Bool) (db : Store) (ids : List String)
    (hnone : ∀ s ∈ ids, ObjectIDFromHex s = none) :
    controllers.MarkMessagesAsRead fails db ⟨some ids⟩ =
      ⟨.json http.StatusBadRequest (.error "无效的消息ID"), db, []⟩ ∧
    controllers.MarkMessagesAsRead fails db ⟨none⟩ =
      ⟨.json http.StatusBadRequest (.error "请求参数无效"), db, []⟩ := by
  exact ⟨MarkMessagesAsRead_reject_run fails db hnone, rfl⟩

/-- C9 (witness): the scenario of the specification, a list whose only entry is malformed;
and the empty list. -/
theorem C9_mark_messages_read_rejects_witness :
    (∀ s ∈ ["not-a-hex"], ObjectIDFromHex s = none) ∧
    controllers.MarkMessagesAsRead noFaults dbMessages ⟨some ["not-a-hex"]⟩ =
      ⟨.json http.StatusBadRequest (.error "无效的消息ID"), dbMessages, []⟩ ∧
    controllers.MarkMessagesAsRead noFaults dbMessages ⟨some []⟩ =
      ⟨.json http.StatusBadRequest (.error "无效的消息ID"), dbMessages, []⟩ :=
  ⟨by decide,
    (C9_mark_messages_read_rejects noFaults dbMessages ["not-a-hex"] (by decide)).1,
    (C9_mark_messages_read_rejects noFaults dbMessages [] (by decide)).1⟩

/-- Marking is idempotent on one message. -/
theorem markRead_idem (objectIDs : List ObjectID) (m : Message) :
    (fun m : Message => if objectIDs.contains m.ID then { m with Read := true } else m)
      ((fun m : Message => if objectIDs.contains m.ID then { m with Read := true } else m) m)
    = (fun m : Message => if objectIDs.contains m.ID then { m with Read := true } else m) m := by
  by_cases hc : objectIDs.contains m.ID = true
  · simp only [hc, if_true]
  · simp only [hc, if_false, Bool.false_eq_true]

/-- C10: `MarkMessagesAsRead` is idempotent over a store that answers. For every database and
every id list, the second of two calls leaves the database the first call left and answers
as the first did; after
either call every stored message whose id is spelled by an entry of the list is read; and
when the list holds a well-formed id both answers are 200. -/
theorem C10_mark_messages_read_idempotent (db : Store) (ids : List String) :
    (controllers.MarkMessagesAsRead noFaults
        (controllers.MarkMessagesAsRead noFaults db ⟨some ids⟩).db ⟨some ids⟩).db =
      (controllers.MarkMessagesAsRead noFaults db ⟨some ids⟩).db ∧
    (controllers.MarkMessagesAsRead noFaults
        (controllers.MarkMessagesAsRead noFaults db ⟨some ids⟩).db ⟨some ids⟩).resp =
      (controllers.MarkMessagesAsRead noFaults db ⟨some ids⟩).resp ∧
    (∀ m ∈ (controllers.MarkMessagesAsRead noFaults db ⟨some ids⟩).db.messages,
      (∃ s ∈ ids, ObjectIDFromHex s = some m.ID) → m.Read = true) ∧
    (∀ m ∈ (controllers.MarkMessagesAsRead noFaults
        (controllers.MarkMessagesAsRead noFaults db ⟨some ids⟩).db ⟨some ids⟩).db.messages,
      (∃ s ∈ ids, ObjectIDFromHex s = some m.ID) → m.Read = true) ∧
    ((∃ s ∈ ids, (ObjectIDFromHex s).isSome) →
      (controllers.MarkMessagesAsRead noFaults db ⟨some ids⟩).resp =
        .json http.StatusOK (.message "消息已标记为已读") ∧
      (controllers.MarkMessagesAsRead noFaults
        (controllers.MarkMessagesAsRead noFaults db ⟨some ids⟩).db ⟨some ids⟩).resp =
        .json http.StatusOK (.message "消息已标记为已读")) := by
  by_cases hv : ∃ s ∈ ids, (ObjectIDFromHex s).isSome
  · have hread : ∀ m ∈ db.messages.map (fun m : Message =>
          if (ids.filterMap ObjectIDFromHex).contains m.ID then { m with Read := true } else m),
        (∃ s ∈ ids, ObjectIDFromHex s = some m.ID) → m.Read = true := by
      intro m hm hs
      rw [List.mem_map] at hm
      obtain ⟨m0, -, rfl⟩ := hm
      by_cases hc : (ids.filterMap ObjectIDFromHex).contains m0.ID = true
      · rw [if_pos hc]
      · rw [if_neg hc] at hs ⊢
        exact absurd ((contains_filterMap_iff ids m0.ID).mpr hs) hc
    have hidem : (db.messages.map (fun m : Message =>
          if (ids.filterMap ObjectIDFromHex).contains m.ID then { m with Read := true }
          else m)).map (fun m : Message =>
          if (ids.filterMap ObjectIDFromHex).contains m.ID then { m with Read := true } else m)
        = db.messages.map (fun m : Message =>
          if (ids.filterMap ObjectIDFromHex).contains m.ID then { m with Read := true }
          else m) := by
      rw [List.map_map]
      apply List.map_congr_left
      intro m _
      exact markRead_idem (ids.filterMap ObjectIDFromHex) m
    rw [MarkMessagesAsRead_run db hv, MarkMessagesAsRead_run _ hv]
    simp only [hidem]
    exact ⟨trivial, trivial, hread, hread, fun _ => ⟨trivial, trivial⟩⟩
  · have hnone : ∀ s ∈ ids, ObjectIDFromHex s = none := by
      intro s hs
      cases h : ObjectIDFromHex s with
      | none => rfl
      | some o => exact absurd ⟨s, hs, by rw [h]; rfl⟩ hv
    have htarget : ∀ m : Message, (∃ s ∈ ids, ObjectIDFromHex s = some m.ID) →
        m.Read = true := by
      rintro m ⟨s, hs, hso⟩
      rw [hnone s hs] at hso
      cases hso
    simp only [MarkMessagesAsRead_reject_run noFaults db hnone]
    exact ⟨trivial, trivial, fun m _ => htarget m, fun m _ => htarget m,
      fun h => absurd h hv⟩

/-- C10 (witness): on the scenario list, the second call leaves the database of the first,
both answer 200, and the targeted messages 1 and 2 are read. -/
theorem C10_mark_messages_read_idempotent_witness :
    (controllers.MarkMessagesAsRead noFaults
        (controllers.MarkMessagesAsRead noFaults dbMessages ⟨some idsMixed⟩).db
        ⟨some idsMixed⟩).db =
      (controllers.MarkMessagesAsRead noFaults dbMessages ⟨some idsMixed⟩).db ∧
    (controllers.MarkMessagesAsRead noFaults dbMessages ⟨some idsMixed⟩).resp =
      .json http.StatusOK (.message "消息已标记为已读") ∧
    (controllers.MarkMessagesAsRead noFaults
        (controllers.MarkMessagesAsRead noFaults dbMessages ⟨some idsMixed⟩).db
        ⟨some idsMixed⟩).resp =
      .json http.StatusOK (.message "消息已标记为已读") :=
  have h := C10_mark_messages_read_idempotent dbMessages idsMixed
  ⟨h.1, (h.2.2.2.2 (by decide)).1, (h.2.2.2.2 (by decide)).2⟩

/-! ## Private history: the round trip -/

/-- What a run of `SendPrivateMessage` that answers 200 went through. -/
theorem SendPrivateMessage_ok_inv (fails : Nat → Bool) (env : Env) (db : Store)
    (senderID : String) (req : controllers.SendPrivateMessageRequest)
    (hok : (controllers.SendPrivateMessage fails env db senderID req).resp.status
      = some http.StatusOK) :
    req.ReceiverID ≠ "" ∧ req.Content ≠ "" ∧
    AcceptedEdge db senderID req.ReceiverID ∧
    ∃ (message : Message) (db1 : Store) (sender : User),
      models.SavePrivateMessage (fails 2) env db senderID req.ReceiverID req.Content
        = .ok (message, db1) ∧
      models.GetUserByID (fails 3) db1 senderID = .ok sender ∧
      controllers.SendPrivateMessage fails env db senderID req =
        ⟨.json http.StatusOK (.sent "消息发送成功" message), db1,
          [(req.ReceiverID,
            .obj [("data", controllers.privateEnvelope message sender senderID req)])]⟩ := by
  unfold controllers.SendPrivateMessage at hok ⊢
  cases hb : (req.ReceiverID == "" || req.Content == "") with
  | true => simp [hb, Outcome.status, http.StatusOK, http.StatusBadRequest] at hok
  | false =>
    rw [hb] at hok
    simp only [Bool.false_eq_true, if_false] at hok ⊢
    have hne : req.ReceiverID ≠ "" ∧ req.Content ≠ "" := by
      simp only [Bool.or_eq_false_iff, beq_eq_false_iff_ne, ne_eq] at hb
      exact hb
    cases hu : models.GetUserByID (fails 0) db req.ReceiverID with
    | error e => simp [hu, Outcome.status, http.StatusOK, http.StatusNotFound] at hok
    | ok u =>
      rw [hu] at hok
      simp only at hok ⊢
      cases h1 : fails 1 with
      | true =>
        simp [h1, models.GetFriendships, Outcome.status, http.StatusOK,
          http.StatusInternalServerError] at hok
      | false =>
        rw [h1] at hok
        simp only [GetFriendships_false] at hok ⊢
        cases hfr : (db.friendships.filter (fun f =>
            (f.UserID == senderID || f.FriendID == senderID) && f.Deleted == false
              && (("accepted" : String) == "" || f.Status == "accepted"))).any
            (fun friendship =>
              (friendship.UserID == senderID && friendship.FriendID == req.ReceiverID) ||
              (friendship.UserID == req.ReceiverID && friendship.FriendID == senderID)) with
        | false =>
          rw [hfr] at hok
          simp [Outcome.status, http.StatusOK, http.StatusForbidden] at hok
        | true =>
          rw [hfr] at hok
          simp only [Bool.not_true, Bool.false_eq_true, if_false] at hok ⊢
          have hedge := (isFriend_iff db senderID req.ReceiverID).mp hfr
          cases hs : models.SavePrivateMessage (fails 2) env db senderID req.ReceiverID
              req.Content with
          | error e =>
            simp [hs, Outcome.status, http.StatusOK, http.StatusInternalServerError] at hok
          | ok p =>
            obtain ⟨message, db1⟩ := p
            rw [hs] at hok
            simp only at hok ⊢
            cases hsn : models.GetUserByID (fails 3) db1 senderID with
            | error e => simp [hsn, Outcome.status] at hok
            | ok sender =>
              exact ⟨hne.1, hne.2, hedge, message, db1, sender, rfl, hsn, rfl⟩

theorem GetUserByID_ok_false {db : Store} {e : Bool} {id : String} {u : User}
    (h : models.GetUserByID e db id = .ok u) : models.GetUserByID false db id = .ok u := by
  cases e with
  | false => exact h
  | true =>
    unfold models.GetUserByID at h
    cases ho : ObjectIDFromHex id with
    | none => rw [ho] at h; cases h
    | some o => rw [ho] at h; cases h

theorem SavePrivateMessage_ok_eq {db db1 : Store} {e : Bool} {env : Env}
    {senderID receiverID content : String} {message : Message}
    (h : models.SavePrivateMessage e env db senderID receiverID content = .ok (message, db1)) :
    message = { ID := env.newID, Type_ := "private", SenderID := senderID,
                ReceiverID := receiverID, GroupID := "", Content := content,
                Timestamp := env.now, Read := false } ∧
    db1 = { db with messages := db.messages ++ [message] } := by
  unfold models.SavePrivateMessage at h
  cases e with
  | true => cases h
  | false =>
    simp only [Bool.false_eq_true, if_false, Except.ok.injEq, Prod.mk.injEq] at h
    obtain ⟨h1, h2⟩ := h
    subst h1
    exact ⟨rfl, h2.symm⟩

theorem AcceptedEdge_symm {db : Store} {a b : String} (h : AcceptedEdge db a b) :
    AcceptedEdge db b a := by
  obtain ⟨f, hf, hd, hs, hp⟩ := h
  exact ⟨f, hf, hd, hs, hp.symm⟩

/-- The filter of `models.GetPrivateMessages` selects the messages of the conversation. -/
theorem conversation_filter_iff (u1 u2 : String) (m : Message) :
    (m.Type_ == MessageTypePrivate &&
      ((m.SenderID == u1 && omitemptyEq m.ReceiverID u2) ||
        (m.SenderID == u2 && omitemptyEq m.ReceiverID u1))) = true ↔
    InConversation u1 u2 m ∧ m.ReceiverID ≠ "" := by
  simp only [omitemptyEq, MessageTypePrivate, InConversation, Bool.and_eq_true,
    Bool.or_eq_true, beq_iff_eq, bne_iff_ne, ne_eq]
  tauto

/-- The authorization stage of the private history lets a friend of an existing user
through. -/
theorem authorizePrivateRetrieval_none {fails : Nat → Bool} {db : Store}
    {userID receiverID : String} {u : User}
    (hu : models.GetUserByID (fails 0) db receiverID = .ok u) (h1 : fails 1 = false)
    (hedge : AcceptedEdge db userID receiverID) :
    controllers.authorizePrivateRetrieval fails db userID receiverID = none := by
  unfold controllers.authorizePrivateRetrieval
  rw [hu, h1]
  simp only [GetFriendships_false]
  rw [(isFriend_iff db userID receiverID).mpr hedge]
  rfl

/-- C11: after a `SendPrivateMessage` of A to B that answers 200 (so A and B are friends),
when no private message between A and B was stored before, the history handler
`GetPrivateMessages` called by B for the conversation with A, without `limit` and `skip`
parameters and over a store that answers, answers 200 with a list of exactly one message; it
has the sent content, sender A, receiver B, type private, and is unread. -/
theorem C11_private_round_trip (fails : Nat → Bool) (env : Env) (rank : Message → Nat)
    (db : Store) (a b content : String)
    (hfresh : ∀ m ∈ db.messages, ¬ InConversation a b m)
    (hsent : (controllers.SendPrivateMessage fails env db a ⟨b, content⟩).resp.status
      = some http.StatusOK) :
    ∃ m : Message,
      (controllers.GetPrivateMessages noFaults rank
        (controllers.SendPrivateMessage fails env db a ⟨b, content⟩).db b a none none).resp
        = .json http.StatusOK (.messages [m]) ∧
      m.Content = content ∧ m.SenderID = a ∧ m.ReceiverID = b ∧ m.Type_ = "private" ∧
      m.Read = false := by
  obtain ⟨hb, -, hedge, message, db1, sender, hsave, hsender, hrun⟩ :=
    SendPrivateMessage_ok_inv fails env db a ⟨b, content⟩ hsent
  obtain ⟨hmsg, hdb1⟩ := SavePrivateMessage_ok_eq hsave
  simp only at hb hedge hmsg hdb1 hsender
  have hedge1 : AcceptedEdge db1 b a := by
    rw [hdb1]
    exact AcceptedEdge_symm hedge
  have hauth : controllers.authorizePrivateRetrieval noFaults db1 b a = none :=
    authorizePrivateRetrieval_none (GetUserByID_ok_false hsender) rfl hedge1
  have hold : db.messages.filter (fun m =>
      m.Type_ == MessageTypePrivate &&
        ((m.SenderID == b && omitemptyEq m.ReceiverID a) ||
          (m.SenderID == a && omitemptyEq m.ReceiverID b))) = [] := by
    rw [List.filter_eq_nil_iff]
    intro m hm hp
    obtain ⟨⟨ht, hc⟩, -⟩ := (conversation_filter_iff b a m).mp hp
    exact hfresh m hm ⟨ht, hc.symm⟩
  have hnew : [message].filter (fun m =>
      m.Type_ == MessageTypePrivate &&
        ((m.SenderID == b && omitemptyEq m.ReceiverID a) ||
          (m.SenderID == a && omitemptyEq m.ReceiverID b))) = [message] := by
    rw [List.filter_eq_self]
    intro m hm
    rw [List.mem_singleton] at hm
    rw [hm, conversation_filter_iff, hmsg]
    exact ⟨⟨rfl, Or.inr ⟨rfl, rfl⟩⟩, hb⟩
  have hquery : models.GetPrivateMessages (noFaults 2) rank db1 b a
      (controllers.pageLimit (controllers.Query none))
      (controllers.pageSkip (controllers.Query none)) = .ok [message] := by
    unfold models.GetPrivateMessages
    rw [hdb1]
    simp only [noFaults, Bool.false_eq_true, if_false, List.filter_append, hold, hnew,
      List.nil_append, List.insertionSort, List.orderedInsert]
    rfl
  refine ⟨message, ?_, ?_⟩
  · rw [hrun]
    unfold controllers.GetPrivateMessages
    simp only [hauth, hquery]
  · rw [hmsg]
    exact ⟨rfl, rfl, rfl, rfl, rfl⟩

/-- C11 (witness): in `db0`, without messages, A sends "hello" to the friend B; B then reads
the conversation with A. -/
theorem C11_private_round_trip_witness :
    (∀ m ∈ db0.messages, ¬ InConversation idA idB m) ∧
    (controllers.SendPrivateMessage noFaults env0 db0 idA ⟨idB, "hello"⟩).resp.status
      = some http.StatusOK ∧
    ∃ m : Message,
      (controllers.GetPrivateMessages noFaults rankNatural
        (controllers.SendPrivateMessage noFaults env0 db0 idA ⟨idB, "hello"⟩).db idB idA
        none none).resp = .json http.StatusOK (.messages [m]) ∧
      m.Content = "hello" ∧ m.SenderID = idA ∧ m.ReceiverID = idB ∧ m.Type_ = "private" ∧
      m.Read = false :=
  ⟨by decide, by decide,
    C11_private_round_trip noFaults env0 rankNatural db0 idA idB "hello" (by decide)
      (by decide)⟩

/-! ## History: ordering and pages -/

/-- The page of a positive limit and a non-negative skip. -/
theorem page_window {limit skip : Int} (hlimit : 0 < limit) (hskip : 0 ≤ skip)
    (sorted : List Message) :
    page limit skip sorted = .ok ((sorted.drop skip.toNat).take limit.toNat) := by
  unfold page
  have h1 : ¬ skip < 0 := by omega
  have h2 : ¬ limit = 0 := by omega
  have h3 : limit.natAbs = limit.toNat := by omega
  simp only [h1, h2, if_false, h3]

/-- The filter of `models.GetGroupMessages` selects the messages of the group. -/
theorem group_filter_iff (g : String) (m : Message) :
    (m.Type_ == MessageTypeGroup && omitemptyEq m.GroupID g) = true ↔
    InGroupConversation g m ∧ m.GroupID ≠ "" := by
  simp only [omitemptyEq, MessageTypeGroup, InGroupConversation, Bool.and_eq_true,
    beq_iff_eq, bne_iff_ne, ne_eq]
  tauto

/-- C12: for every database, every tie order of the server, and every page with a positive
limit and a non-negative skip (the only ones the handlers ask for), over a store that answers:
`models.GetPrivateMessages` returns the window from `skip` of length `limit` of a list that
holds exactly the messages of the conversation and is sorted by timestamp, non-increasing, and
the returned list is sorted so too; `models.GetGroupMessages` does the same with timestamps
non-decreasing. -/
theorem C12_history_ordering (rank : Message → Nat) (db : Store) (u1 u2 g : String)
    (limit skip : Int) (hlimit : 0 < limit) (hskip : 0 ≤ skip) :
    (∃ full result : List Message,
      models.GetPrivateMessages false rank db u1 u2 limit skip = .ok result ∧
      full.Perm (db.messages.filter
        (fun m => decide (InConversation u1 u2 m ∧ m.ReceiverID ≠ ""))) ∧
      full.Sorted (fun x y => y.Timestamp ≤ x.Timestamp) ∧
      result = (full.drop skip.toNat).take limit.toNat ∧
      result.Sorted (fun x y => y.Timestamp ≤ x.Timestamp)) ∧
    (∃ full result : List Message,
      models.GetGroupMessages false rank db g limit skip = .ok result ∧
      full.Perm (db.messages.filter
        (fun m => decide (InGroupConversation g m ∧ m.GroupID ≠ ""))) ∧
      full.Sorted (fun x y => x.Timestamp ≤ y.Timestamp) ∧
      result = (full.drop skip.toNat).take limit.toNat ∧
      result.Sorted (fun x y => x.Timestamp ≤ y.Timestamp)) := by
  constructor
  · have hfilter : db.messages.filter (fun m =>
        m.Type_ == MessageTypePrivate &&
          ((m.SenderID == u1 && omitemptyEq m.ReceiverID u2) ||
            (m.SenderID == u2 && omitemptyEq m.ReceiverID u1))) =
        db.messages.filter (fun m => decide (InConversation u1 u2 m ∧ m.ReceiverID ≠ "")) := by
      apply List.filter_congr
      intro m _
      rw [Bool.eq_iff_iff, conversation_filter_iff, decide_eq_true_iff]
    have hsorted : ((db.messages.filter (fun m => decide (InConversation u1 u2 m ∧
        m.ReceiverID ≠ ""))).insertionSort (timestampDesc rank)).Sorted
        (fun x y => y.Timestamp ≤ x.Timestamp) := by
      apply List.Pairwise.imp _ (List.sorted_insertionSort (timestampDesc rank) _)
      intro x y hxy
      unfold timestampDesc at hxy
      omega
    refine ⟨_, _, ?_, List.perm_insertionSort (timestampDesc rank) _, hsorted, rfl, ?_⟩
    · unfold models.GetPrivateMessages
      simp only [Bool.false_eq_true, if_false, hfilter]
      exact page_window hlimit hskip _
    · exact List.Pairwise.sublist
        ((List.take_sublist _ _).trans (List.drop_sublist _ _)) hsorted
  · have hfilter : db.messages.filter (fun m =>
        m.Type_ == MessageTypeGroup && omitemptyEq m.GroupID g) =
        db.messages.filter (fun m => decide (InGroupConversation g m ∧ m.GroupID ≠ "")) := by
      apply List.filter_congr
      intro m _
      rw [Bool.eq_iff_iff, group_filter_iff, decide_eq_true_iff]
    have hsorted : ((db.messages.filter (fun m => decide (InGroupConversation g m ∧
        m.GroupID ≠ ""))).insertionSort (timestampAsc rank)).Sorted
        (fun x y => x.Timestamp ≤ y.Timestamp) := by
      apply List.Pairwise.imp _ (List.sorted_insertionSort (timestampAsc rank) _)
      intro x y hxy
      unfold timestampAsc at hxy
      omega
    refine ⟨_, _, ?_, List.perm_insertionSort (timestampAsc rank) _, hsorted, rfl, ?_⟩
    · unfold models.GetGroupMessages
      simp only [Bool.false_eq_true, if_false, hfilter]
      exact page_window hlimit hskip _
    · exact List.Pairwise.sublist
        ((List.take_sublist _ _).trans (List.drop_sublist _ _)) hsorted

/-- C12 (witness): on `dbHistory`, the page of limit 2 and skip 1: the private conversation of
A and B, stored at the times 30, 10, 20, is read as 20, 10; the group conversation, stored at
25, 15, is read from skip 0 as 15, 25. -/
theorem C12_history_ordering_witness :
    (models.GetPrivateMessages false rankNatural dbHistory idA idB 2 1).toOption.map
      (fun ms => ms.map (fun m => m.Timestamp)) = some [20, 10] ∧
    (models.GetGroupMessages false rankNatural dbHistory idG 2 0).toOption.map
      (fun ms => ms.map (fun m => m.Timestamp)) = some [15, 25] ∧
    ∃ full result : List Message,
      models.GetPrivateMessages false rankNatural dbHistory idA idB 2 1 = .ok result ∧
      full.Sorted (fun x y => y.Timestamp ≤ x.Timestamp) ∧
      result = (full.drop 1).take 2 := by
  refine ⟨by decide, by decide, ?_⟩
  obtain ⟨full, result, hres, -, hs, hw, -⟩ :=
    (C12_history_ordering rankNatural dbHistory idA idB idG 2 1 (by decide) (by decide)).1
  exact ⟨full, result, hres, hs, hw⟩

/-! ## History: messages of equal timestamp -/

theorem insertionSort_congr {r s : Message → Message → Prop} [DecidableRel r] [DecidableRel s]
    (l : List Message) (h : ∀ a ∈ l, ∀ b ∈ l, r a b ↔ s a b) :
    l.insertionSort r = l.insertionSort s := by
  have hmap := List.map_insertionSort r s id l h
  simpa using hmap

/-- C13 (amended): the history queries sort on the timestamp alone. When no two messages of
the conversation have the same timestamp, the list `models.GetPrivateMessages` returns, and
so every page boundary, is the same whatever order the server keeps among equal keys: it is
determined by the stored messages; the same holds for `models.GetGroupMessages`. -/
theorem C13_order_determined_without_ties (rank1 rank2 : Message → Nat) (db : Store)
    (u1 u2 g : String) (limit skip : Int)
    (hprivate : ∀ m1 ∈ db.messages, ∀ m2 ∈ db.messages, InConversation u1 u2 m1 →
      InConversation u1 u2 m2 → m1.Timestamp = m2.Timestamp → m1 = m2)
    (hgroup : ∀ m1 ∈ db.messages, ∀ m2 ∈ db.messages, InGroupConversation g m1 →
      InGroupConversation g m2 → m1.Timestamp = m2.Timestamp → m1 = m2) :
    models.GetPrivateMessages false rank1 db u1 u2 limit skip =
      models.GetPrivateMessages false rank2 db u1 u2 limit skip ∧
    models.GetGroupMessages false rank1 db g limit skip =
      models.GetGroupMessages false rank2 db g limit skip := by
  constructor
  · unfold models.GetPrivateMessages
    simp only [Bool.false_eq_true, if_false]
    congr 1
    apply insertionSort_congr
    intro a ha b hb
    rw [List.mem_filter] at ha hb
    have hca := ((conversation_filter_iff u1 u2 a).mp ha.2).1
    have hcb := ((conversation_filter_iff u1 u2 b).mp hb.2).1
    by_cases ht : a.Timestamp = b.Timestamp
    · have hab := hprivate a ha.1 b hb.1 hca hcb ht
      subst hab
      simp [timestampDesc]
    · unfold timestampDesc
      constructor <;> rintro (h | h) <;> first | exact Or.inl h | exact absurd h.1 ht
  · unfold models.GetGroupMessages
    simp only [Bool.false_eq_true, if_false]
    congr 1
    apply insertionSort_congr
    intro a ha b hb
    rw [List.mem_filter] at ha hb
    have hca := ((group_filter_iff g a).mp ha.2).1
    have hcb := ((group_filter_iff g b).mp hb.2).1
    by_cases ht : a.Timestamp = b.Timestamp
    · have hab := hgroup a ha.1 b hb.1 hca hcb ht
      subst hab
      simp [timestampAsc]
    · unfold timestampAsc
      constructor <;> rintro (h | h) <;> first | exact Or.inl h | exact absurd h.1 ht

/-- C13 (witness): in `dbHistory` the timestamps of each conversation are distinct, and the
two tie orders give the same pages. -/
theorem C13_order_determined_without_ties_witness :
    models.GetPrivateMessages false rankNatural dbHistory idA idB 2 1 =
      models.GetPrivateMessages false rankLaterFirst dbHistory idA idB 2 1 ∧
    models.GetGroupMessages false rankNatural dbHistory idG 2 1 =
      models.GetGroupMessages false rankLaterFirst dbHistory idG 2 1 :=
  C13_order_determined_without_ties rankNatural rankLaterFirst dbHistory idA idB idG 2 1
    (by decide) (by decide)

/-- C13 (counterexample): `dbTies` holds two private messages of one conversation with the
timestamp 5 and two group messages of one group with the timestamp 7. The queries name no
second sort key, and the first page of limit 1 is message 1 (or 3) when the server keeps the
natural order among equal timestamps and message 2 (or 4) when it does not: the stored
messages do not determine the page. -/
theorem C13_counterexample :
    ((models.GetPrivateMessages false rankNatural dbTies idA idB 1 0).toOption.map
        (fun ms => ms.map (fun m => (m.ID, m.Timestamp))) = some [(1, 5)] ∧
      (models.GetPrivateMessages false rankLaterFirst dbTies idA idB 1 0).toOption.map
        (fun ms => ms.map (fun m => (m.ID, m.Timestamp))) = some [(2, 5)]) ∧
    ((models.GetGroupMessages false rankNatural dbTies idG 1 0).toOption.map
        (fun ms => ms.map (fun m => (m.ID, m.Timestamp))) = some [(3, 7)] ∧
      (models.GetGroupMessages false rankLaterFirst dbTies idG 1 0).toOption.map
        (fun ms => ms.map (fun m => (m.ID, m.Timestamp))) = some [(4, 7)]) := by
  decide

/-! ## History: pagination parameters -/

theorem ParseInt_empty : strconv.ParseInt "" = none := by decide

/-- C14: in both history handlers the limit handed to the store is 20 when the `limit`
parameter is absent, empty, not parsable as a base-10 int64, or parses to a value at most 0,
and is the parsed value otherwise; the skip is 0 when `skip` is absent, empty, not parsable, or
parses to a negative value, and is the parsed value otherwise. So the limit is at least 1 and
the skip at least 0 for every pair of parameters, and these are the values with which the two
handlers call `models.GetPrivateMessages` and `models.GetGroupMessages`. -/
theorem C14_pagination_defaults (limitQuery skipQuery : Option String) :
    ((limitQuery = none ∨ limitQuery = some "" ∨
        strconv.ParseInt (controllers.Query limitQuery) = none ∨
        (∃ v, strconv.ParseInt (controllers.Query limitQuery) = some v ∧ v ≤ 0)) →
      controllers.pageLimit (controllers.Query limitQuery) = 20) ∧
    (∀ v, strconv.ParseInt (controllers.Query limitQuery) = some v → 0 < v →
      controllers.pageLimit (controllers.Query limitQuery) = v) ∧
    ((skipQuery = none ∨ skipQuery = some "" ∨
        strconv.ParseInt (controllers.Query skipQuery) = none ∨
        (∃ v, strconv.ParseInt (controllers.Query skipQuery) = some v ∧ v < 0)) →
      controllers.pageSkip (controllers.Query skipQuery) = 0) ∧
    (∀ v, strconv.ParseInt (controllers.Query skipQuery) = some v → 0 ≤ v →
      controllers.pageSkip (controllers.Query skipQuery) = v) ∧
    1 ≤ controllers.pageLimit (controllers.Query limitQuery) ∧
    0 ≤ controllers.pageSkip (controllers.Query skipQuery) ∧
    (∀ fails rank db userID receiverID,
      controllers.authorizePrivateRetrieval fails db userID receiverID = none →
      controllers.GetPrivateMessages fails rank db userID receiverID limitQuery skipQuery =
        match models.GetPrivateMessages (fails 2) rank db userID receiverID
          (controllers.pageLimit (controllers.Query limitQuery))
          (controllers.pageSkip (controllers.Query skipQuery)) with
        | .error _ => ⟨.json http.StatusInternalServerError (.error "获取消息失败"), db, []⟩
        | .ok messages => ⟨.json http.StatusOK (.messages messages), db, []⟩) ∧
    (∀ fails rank db userID groupID,
      controllers.authorizeGroupRetrieval fails db userID groupID = none →
      controllers.GetGroupMessages fails rank db userID groupID limitQuery skipQuery =
        match models.GetGroupMessages (fails 3) rank db groupID
          (controllers.pageLimit (controllers.Query limitQuery))
          (controllers.pageSkip (controllers.Query skipQuery)) with
        | .error _ => ⟨.json http.StatusInternalServerError (.error "获取消息失败"), db, []⟩
        | .ok messages => ⟨.json http.StatusOK (.messages messages), db, []⟩) := by
  have hlimit : ∀ str : String, (str = "" ∨ strconv.ParseInt str = none ∨
      (∃ v, strconv.ParseInt str = some v ∧ v ≤ 0)) → controllers.pageLimit str = 20 := by
    intro str h
    unfold controllers.pageLimit
    rcases h with h | h | ⟨v, h, hv⟩
    · subst h; rfl
    · rw [h]; simp
    · rw [h]
      have : ¬ v > 0 := by omega
      simp [this]
  have hlimit2 : ∀ (str : String) (v : Int), strconv.ParseInt str = some v → 0 < v →
      controllers.pageLimit str = v := by
    intro str v h hv
    have hne : str ≠ "" := by
      rintro rfl
      rw [ParseInt_empty] at h
      cases h
    unfold controllers.pageLimit
    rw [h]
    simp [hne, hv]
  have hskip : ∀ str : String, (str = "" ∨ strconv.ParseInt str = none ∨
      (∃ v, strconv.ParseInt str = some v ∧ v < 0)) → controllers.pageSkip str = 0 := by
    intro str h
    unfold controllers.pageSkip
    rcases h with h | h | ⟨v, h, hv⟩
    · subst h; rfl
    · rw [h]; simp
    · rw [h]
      have : ¬ v ≥ 0 := by omega
      simp [this]
  have hskip2 : ∀ (str : String) (v : Int), strconv.ParseInt str = some v → 0 ≤ v →
      controllers.pageSkip str = v := by
    intro str v h hv
    have hne : str ≠ "" := by
      rintro rfl
      rw [ParseInt_empty] at h
      cases h
    unfold controllers.pageSkip
    rw [h]
    simp [hne, hv]
  have hl1 : ∀ str : String, 1 ≤ controllers.pageLimit str := by
    intro str
    cases hp : strconv.ParseInt str with
    | none => rw [hlimit str (Or.inr (Or.inl hp))]; decide
    | some v =>
      by_cases hv : 0 < v
      · rw [hlimit2 str v hp hv]; omega
      · rw [hlimit str (Or.inr (Or.inr ⟨v, hp, by omega⟩))]; decide
  have hs0 : ∀ str : String, 0 ≤ controllers.pageSkip str := by
    intro str
    cases hp : strconv.ParseInt str with
    | none => rw [hskip str (Or.inr (Or.inl hp))]
    | some v =>
      by_cases hv : 0 ≤ v
      · rw [hskip2 str v hp hv]; exact hv
      · rw [hskip str (Or.inr (Or.inr ⟨v, hp, by omega⟩))]
  refine ⟨?_, hlimit2 _, ?_, hskip2 _, hl1 _, hs0 _, ?_, ?_⟩
  · rintro (h | h | h | h)
    · subst h; rfl
    · subst h; rfl
    · exact hlimit _ (Or.inr (Or.inl h))
    · exact hlimit _ (Or.inr (Or.inr h))
  · rintro (h | h | h | h)
    · subst h; rfl
    · subst h; rfl
    · exact hskip _ (Or.inr (Or.inl h))
    · exact hskip _ (Or.inr (Or.inr h))
  · intro fails rank db userID receiverID hauth
    unfold controllers.GetPrivateMessages
    rw [hauth]
  · intro fails rank db userID groupID hauth
    unfold controllers.GetGroupMessages
    rw [hauth]

/-- C14 (witness): the parameters `limit=5`, `skip=40` are used as they are; `limit=0`,
`limit=abc`, a limit beyond int64 and `skip=-3` fall back to 20 and 0. -/
theorem C14_pagination_defaults_witness :
    controllers.pageLimit (controllers.Query (some "5")) = 5 ∧
    controllers.pageSkip (controllers.Query (some "40")) = 40 ∧
    controllers.pageLimit (controllers.Query (some "0")) = 20 ∧
    controllers.pageLimit (controllers.Query (some "abc")) = 20 ∧
    controllers.pageLimit (controllers.Query (some "9223372036854775808")) = 20 ∧
    controllers.pageSkip (controllers.Query (some "-3")) = 0 ∧
    controllers.pageLimit (controllers.Query none) = 20 ∧
    controllers.pageSkip (controllers.Query none) = 0 :=
  ⟨(C14_pagination_defaults (some "5") (some "40")).2.1 5 (by decide) (by decide),
    (C14_pagination_defaults (some "5") (some "40")).2.2.2.1 40 (by decide) (by decide),
    (C14_pagination_defaults (some "0") none).1 (Or.inr (Or.inr (Or.inr ⟨0, by decide⟩))),
    (C14_pagination_defaults (some "abc") none).1 (Or.inr (Or.inr (Or.inl (by decide)))),
    (C14_pagination_defaults (some "9223372036854775808") none).1
      (Or.inr (Or.inr (Or.inl (by decide)))),
    (C14_pagination_defaults none (some "-3")).2.2.1
      (Or.inr (Or.inr (Or.inr ⟨-3, by decide⟩))),
    (C14_pagination_defaults none none).1 (Or.inl rfl),
    (C14_pagination_defaults none none).2.2.1 (Or.inl rfl)⟩

/-! ## Retrieval and send: the authorization stages -/

/-- The stage `authorizePrivateSend` is the authorization stage of `SendPrivateMessage`: for a
request that passes the binding, the handler answers the rejection of the stage and does
nothing else, and when the stage lets the request through the handler goes on to the
insertion. -/
theorem SendPrivateMessage_stage (fails : Nat → Bool) (env : Env) (db : Store)
    (senderID : String) (req : controllers.SendPrivateMessageRequest)
    (hid : req.ReceiverID ≠ "") (hcontent : req.Content ≠ "") :
    (∀ r, controllers.authorizePrivateSend fails db senderID req = some r →
      controllers.SendPrivateMessage fails env db senderID req = ⟨r, db, []⟩) ∧
    (controllers.authorizePrivateSend fails db senderID req = none →
      (controllers.SendPrivateMessage fails env db senderID req).resp =
          .json http.StatusInternalServerError (.error "保存消息失败") ∨
        (controllers.SendPrivateMessage fails env db senderID req).resp = .nilDereference ∨
        (controllers.SendPrivateMessage fails env db senderID req).resp.status =
          some http.StatusOK) := by
  have hb : (req.ReceiverID == "" || req.Content == "") = false := by simp_all
  unfold controllers.authorizePrivateSend controllers.SendPrivateMessage
  simp only [hb, Bool.false_eq_true, if_false]
  cases models.GetUserByID (fails 0) db req.ReceiverID with
  | error e => simp
  | ok u =>
    simp only
    cases models.GetFriendships (fails 1) db senderID "accepted" with
    | error e => simp
    | ok fs =>
      simp only
      cases fs.any (fun friendship =>
          (friendship.UserID == senderID && friendship.FriendID == req.ReceiverID) ||
          (friendship.UserID == req.ReceiverID && friendship.FriendID == senderID)) with
      | false => simp
      | true =>
        simp only [Bool.not_true, Bool.false_eq_true, if_false, true_implies, reduceCtorEq,
          false_implies, implies_true, true_and]
        cases models.SavePrivateMessage (fails 2) env db senderID req.ReceiverID
            req.Content with
        | error e => exact Or.inl rfl
        | ok p =>
          obtain ⟨message, db1⟩ := p
          simp only
          cases models.GetUserByID (fails 3) db1 senderID with
          | error e => exact Or.inr (Or.inl rfl)
          | ok sender => exact Or.inr (Or.inr rfl)

/-- The stage `authorizeGroupSend` is the authorization stage of `SendGroupMessage`. -/
theorem SendGroupMessage_stage (fails : Nat → Bool) (env : Env) (db : Store)
    (senderID : String) (req : controllers.SendGroupMessageRequest)
    (hid : req.GroupID ≠ "") (hcontent : req.Content ≠ "") :
    (∀ r, controllers.authorizeGroupSend fails db senderID req = some r →
      controllers.SendGroupMessage fails env db senderID req = ⟨r, db, []⟩) ∧
    (controllers.authorizeGroupSend fails db senderID req = none →
      (controllers.SendGroupMessage fails env db senderID req).resp =
          .json http.StatusInternalServerError (.error "保存消息失败") ∨
        (controllers.SendGroupMessage fails env db senderID req).resp = .nilDereference ∨
        (controllers.SendGroupMessage fails env db senderID req).resp =
          .json http.StatusInternalServerError (.error "发送消息失败") ∨
        (controllers.SendGroupMessage fails env db senderID req).resp.status =
          some http.StatusOK) := by
  have hb : (req.GroupID == "" || req.Content == "") = false := by simp_all
  unfold controllers.authorizeGroupSend controllers.SendGroupMessage
  simp only [hb, Bool.false_eq_true, if_false]
  cases models.GetGroupByID (fails 0) db req.GroupID with
  | error e => simp
  | ok u =>
    simp only
    cases models.GetUserGroups (fails 1) (fails 2) db senderID with
    | error e => simp
    | ok gs =>
      simp only
      cases gs.any (fun g => g.ID.Hex == req.GroupID) with
      | false => simp
      | true =>
        simp only [Bool.not_true, Bool.false_eq_true, if_false, true_implies, reduceCtorEq,
          false_implies, implies_true, true_and]
        cases models.SaveGroupMessage (fails 3) env db senderID req.GroupID req.Content with
        | error e => exact Or.inl rfl
        | ok p =>
          obtain ⟨message, db1⟩ := p
          simp only
          cases models.GetUserByID (fails 4) db1 senderID with
          | error e => exact Or.inr (Or.inl rfl)
          | ok sender =>
            simp only
            cases models.GetGroupMembers (fails 5) db1 req.GroupID with
            | error e => exact Or.inr (Or.inr (Or.inl rfl))
            | ok members => exact Or.inr (Or.inr (Or.inr rfl))

/-- C15: for every database, store errors, caller U and target id X, the authorization stage
of `GetPrivateMessages` for (U, X) lets the request through exactly when the authorization
stage of `SendPrivateMessage` from U to X does, and otherwise both reject with the same
status, one of NotFound, Internal and Forbidden; likewise the stage of `GetGroupMessages` and
the stage of `SendGroupMessage` for (U, G). The stages are the ones the handlers run: the
retrieval handlers answer the rejection of their stage, and so do the send handlers on a
request that passes the binding. -/
theorem C15_retrieval_mirrors_send (fails : Nat → Bool) (db : Store)
    (userID target content : String) :
    ((controllers.authorizePrivateRetrieval fails db userID target).map Outcome.status =
      (controllers.authorizePrivateSend fails db userID ⟨target, content⟩).map
        Outcome.status) ∧
    (controllers.authorizePrivateRetrieval fails db userID target = none ↔
      controllers.authorizePrivateSend fails db userID ⟨target, content⟩ = none) ∧
    ((controllers.authorizeGroupRetrieval fails db userID target).map Outcome.status =
      (controllers.authorizeGroupSend fails db userID ⟨target, content⟩).map Outcome.status) ∧
    (controllers.authorizeGroupRetrieval fails db userID target = none ↔
      controllers.authorizeGroupSend fails db userID ⟨target, content⟩ = none) ∧
    (∀ r, (controllers.authorizePrivateRetrieval fails db userID target = some r ∨
        controllers.authorizeGroupRetrieval fails db userID target = some r) →
      r.status = some http.StatusNotFound ∨ r.status = some http.StatusInternalServerError ∨
        r.status = some http.StatusForbidden) ∧
    (∀ rank limitQuery skipQuery r,
      (controllers.authorizePrivateRetrieval fails db userID target = some r →
        controllers.GetPrivateMessages fails rank db userID target limitQuery skipQuery =
          ⟨r, db, []⟩) ∧
      (controllers.authorizeGroupRetrieval fails db userID target = some r →
        controllers.GetGroupMessages fails rank db userID target limitQuery skipQuery =
          ⟨r, db, []⟩)) ∧
    (target ≠ "" → content ≠ "" → ∀ env r,
      (controllers.authorizePrivateSend fails db userID ⟨target, content⟩ = some r →
        controllers.SendPrivateMessage fails env db userID ⟨target, content⟩ = ⟨r, db, []⟩) ∧
      (controllers.authorizeGroupSend fails db userID ⟨target, content⟩ = some r →
        controllers.SendGroupMessage fails env db userID ⟨target, content⟩ = ⟨r, db, []⟩)) := by
  have hprivate : controllers.authorizePrivateRetrieval fails db userID target = none ∧
        controllers.authorizePrivateSend fails db userID ⟨target, content⟩ = none ∨
      ∃ r1 r2, controllers.authorizePrivateRetrieval fails db userID target = some r1 ∧
        controllers.authorizePrivateSend fails db userID ⟨target, content⟩ = some r2 ∧
        r1.status = r2.status ∧
        (r1.status = some http.StatusNotFound ∨
          r1.status = some http.StatusInternalServerError ∨
          r1.status = some http.StatusForbidden) := by
    unfold controllers.authorizePrivateRetrieval controllers.authorizePrivateSend
    cases models.GetUserByID (fails 0) db target with
    | error e => exact Or.inr ⟨_, _, rfl, rfl, rfl, Or.inl rfl⟩
    | ok u =>
      simp only
      cases models.GetFriendships (fails 1) db userID "accepted" with
      | error e => exact Or.inr ⟨_, _, rfl, rfl, rfl, Or.inr (Or.inl rfl)⟩
      | ok fs =>
        simp only
        cases fs.any (fun friendship =>
            (friendship.UserID == userID && friendship.FriendID == target) ||
            (friendship.UserID == target && friendship.FriendID == userID)) with
        | false => exact Or.inr ⟨_, _, rfl, rfl, rfl, Or.inr (Or.inr rfl)⟩
        | true => exact Or.inl ⟨rfl, rfl⟩
  have hgroup : controllers.authorizeGroupRetrieval fails db userID target = none ∧
        controllers.authorizeGroupSend fails db userID ⟨target, content⟩ = none ∨
      ∃ r1 r2, controllers.authorizeGroupRetrieval fails db userID target = some r1 ∧
        controllers.authorizeGroupSend fails db userID ⟨target, content⟩ = some r2 ∧
        r1.status = r2.status ∧
        (r1.status = some http.StatusNotFound ∨
          r1.status = some http.StatusInternalServerError ∨
          r1.status = some http.StatusForbidden) := by
    unfold controllers.authorizeGroupRetrieval controllers.authorizeGroupSend
    cases models.GetGroupByID (fails 0) db target with
    | error e => exact Or.inr ⟨_, _, rfl, rfl, rfl, Or.inl rfl⟩
    | ok u =>
      simp only
      cases models.GetUserGroups (fails 1) (fails 2) db userID with
      | error e => exact Or.inr ⟨_, _, rfl, rfl, rfl, Or.inr (Or.inl rfl)⟩
      | ok gs =>
        simp only
        cases gs.any (fun g => g.ID.Hex == target) with
        | false => exact Or.inr ⟨_, _, rfl, rfl, rfl, Or.inr (Or.inr rfl)⟩
        | true => exact Or.inl ⟨rfl, rfl⟩
  refine ⟨?_, ?_, ?_, ?_, ?_, ?_, ?_⟩
  · rcases hprivate with ⟨h1, h2⟩ | ⟨r1, r2, h1, h2, h3, -⟩
    · rw [h1, h2]
    · rw [h1, h2]; exact congrArg some h3
  · rcases hprivate with ⟨h1, h2⟩ | ⟨r1, r2, h1, h2, -, -⟩
    · rw [h1, h2]
    · rw [h1, h2]; simp
  · rcases hgroup with ⟨h1, h2⟩ | ⟨r1, r2, h1, h2, h3, -⟩
    · rw [h1, h2]
    · rw [h1, h2]; exact congrArg some h3
  · rcases hgroup with ⟨h1, h2⟩ | ⟨r1, r2, h1, h2, -, -⟩
    · rw [h1, h2]
    · rw [h1, h2]; simp
  · rintro r (hr | hr)
    · rcases hprivate with ⟨h1, -⟩ | ⟨r1, r2, h1, -, -, h4⟩
      · rw [h1] at hr; cases hr
      · rw [h1] at hr; cases hr; exact h4
    · rcases hgroup with ⟨h1, -⟩ | ⟨r1, r2, h1, -, -, h4⟩
      · rw [h1] at hr; cases hr
      · rw [h1] at hr; cases hr; exact h4
  · intro rank limitQuery skipQuery r
    constructor
    · intro hr
      unfold controllers.GetPrivateMessages
      rw [hr]
    · intro hr
      unfold controllers.GetGroupMessages
      rw [hr]
  · intro htarget hcontent env r
    exact ⟨(SendPrivateMessage_stage fails env db userID ⟨target, content⟩ htarget
        hcontent).1 r,
      (SendGroupMessage_stage fails env db userID ⟨target, content⟩ htarget hcontent).1 r⟩

/-- C15 (witness): in `db0`, A and C are not friends: reading their conversation and sending
are both Forbidden; the id `idD` names no user and no group: both NotFound; A is a member of
G: both group stages let the request through. -/
theorem C15_retrieval_mirrors_send_witness :
    (controllers.GetPrivateMessages noFaults rankNatural db0 idA idC none none).resp.status
      = some http.StatusForbidden ∧
    (controllers.SendPrivateMessage noFaults env0 db0 idA ⟨idC, "hi"⟩).resp.status
      = some http.StatusForbidden ∧
    (controllers.authorizePrivateRetrieval noFaults db0 idA idD).map Outcome.status =
      (controllers.authorizePrivateSend noFaults db0 idA ⟨idD, "hi"⟩).map Outcome.status ∧
    (controllers.authorizePrivateRetrieval noFaults db0 idA idD).map Outcome.status
      = some (some http.StatusNotFound) ∧
    (controllers.authorizeGroupRetrieval noFaults db0 idA idG = none ↔
      controllers.authorizeGroupSend noFaults db0 idA ⟨idG, "hi"⟩ = none) ∧
    controllers.authorizeGroupRetrieval noFaults db0 idA idG = none :=
  have h := C15_retrieval_mirrors_send noFaults db0 idA idD "hi"
  have hg := C15_retrieval_mirrors_send noFaults db0 idA idG "hi"
  ⟨by decide, by decide, h.1, by decide, hg.2.2.2.1, by decide⟩

/-! ## The wire envelopes -/

theorem SaveGroupMessage_ok_eq {db db1 : Store} {e : Bool} {env : Env}
    {senderID groupID content : String} {message : Message}
    (h : models.SaveGroupMessage e env db senderID groupID content = .ok (message, db1)) :
    message = { ID := env.newID, Type_ := "group", SenderID := senderID, ReceiverID := "",
                GroupID := groupID, Content := content, Timestamp := env.now,
                Read := false } ∧
    db1 = { db with messages := db.messages ++ [message] } := by
  unfold models.SaveGroupMessage at h
  cases e with
  | true => cases h
  | false =>
    simp only [Bool.false_eq_true, if_false, Except.ok.injEq, Prod.mk.injEq] at h
    obtain ⟨h1, h2⟩ := h
    subst h1
    exact ⟨rfl, h2.symm⟩

/-- C16: every `SendPrivateMessage` that answers 200 pushes, to the receiver, the envelope
`data: {type: "private", message: {id, from, to, content, timestamp, sender: {id, username,
avatar}}}` where `id` is the hex id of the persisted message, `from` the sender, `to` the
receiver, `content` the content of the request, `timestamp` the timestamp of the persisted
message and `sender` the sender's user record; its message has no key `senderId` or
`groupId`. Every `SendGroupMessage` that answers 200 pushes, in each call, the envelope
`data: {type: "group", message: {id, groupId, senderId, content, timestamp, sender}}` with the
group id of the request and the caller as `senderId`; its message has no key `from` or
`to`. -/
theorem C16_wire_envelopes (fails : Nat → Bool) (env : Env) (db : Store) (senderID : String) :
    (∀ req : controllers.SendPrivateMessageRequest,
      (controllers.SendPrivateMessage fails env db senderID req).resp.status
        = some http.StatusOK →
      ∃ (message : Message) (sender : User) (body : JSON),
        (controllers.SendPrivateMessage fails env db senderID req).resp =
          .json http.StatusOK (.sent "消息发送成功" message) ∧
        message ∈ (controllers.SendPrivateMessage fails env db senderID req).db.messages ∧
        models.GetUserByID false db senderID = .ok sender ∧
        (controllers.SendPrivateMessage fails env db senderID req).sent =
          [(req.ReceiverID,
            .obj [("data", .obj [("type", .str "private"), ("message", body)])])] ∧
        body = .obj [("id", .str message.ID.Hex), ("from", .str senderID),
          ("to", .str req.ReceiverID), ("content", .str req.Content),
          ("timestamp", .time message.Timestamp),
          ("sender", .obj [("id", .oid sender.ID), ("username", .str sender.Username),
            ("avatar", .str sender.Avatar)])] ∧
        body.keys = ["id", "from", "to", "content", "timestamp", "sender"] ∧
        "senderId" ∉ body.keys ∧ "groupId" ∉ body.keys) ∧
    (∀ req : controllers.SendGroupMessageRequest,
      (controllers.SendGroupMessage fails env db senderID req).resp.status
        = some http.StatusOK →
      ∃ (message : Message) (sender : User) (body : JSON),
        (controllers.SendGroupMessage fails env db senderID req).resp =
          .json http.StatusOK (.sent "消息发送成功" message) ∧
        message ∈ (controllers.SendGroupMessage fails env db senderID req).db.messages ∧
        models.GetUserByID false db senderID = .ok sender ∧
        (∀ call ∈ (controllers.SendGroupMessage fails env db senderID req).sent,
          call.2 = .obj [("data", .obj [("type", .str "group"), ("message", body)])]) ∧
        body = .obj [("id", .str message.ID.Hex), ("groupId", .str req.GroupID),
          ("senderId", .str senderID), ("content", .str req.Content),
          ("timestamp", .time message.Timestamp),
          ("sender", .obj [("id", .oid sender.ID), ("username", .str sender.Username),
            ("avatar", .str sender.Avatar)])] ∧
        body.keys = ["id", "groupId", "senderId", "content", "timestamp", "sender"] ∧
        "from" ∉ body.keys ∧ "to" ∉ body.keys) := by
  constructor
  · intro req hok
    obtain ⟨-, -, -, message, db1, sender, hsave, hsender, hrun⟩ :=
      SendPrivateMessage_ok_inv fails env db senderID req hok
    obtain ⟨-, hdb1⟩ := SavePrivateMessage_ok_eq hsave
    have hsender0 : models.GetUserByID false db senderID = .ok sender := by
      have h := GetUserByID_ok_false hsender
      rw [hdb1] at h
      exact h
    refine ⟨message, sender, _, ?_, ?_, hsender0, ?_, rfl, rfl, ?_, ?_⟩
    · rw [hrun]
    · rw [hrun, hdb1]
      simp
    · rw [hrun]
      rfl
    · show "senderId" ∉ ["id", "from", "to", "content", "timestamp", "sender"]
      decide
    · show "groupId" ∉ ["id", "from", "to", "content", "timestamp", "sender"]
      decide
  · intro req hok
    obtain ⟨message, db1, sender, members, hsave, hsender, -, hrun⟩ :=
      SendGroupMessage_ok_inv fails env db senderID req hok
    obtain ⟨-, hdb1⟩ := SaveGroupMessage_ok_eq hsave
    have hsender0 : models.GetUserByID false db senderID = .ok sender := by
      have h := GetUserByID_ok_false hsender
      rw [hdb1] at h
      exact h
    refine ⟨message, sender, _, ?_, ?_, hsender0, ?_, rfl, rfl, ?_, ?_⟩
    · rw [hrun]
    · rw [hrun, hdb1]
      simp
    · rw [hrun]
      intro call hcall
      simp only [controllers.fanOut, json_Marshal, List.mem_filterMap] at hcall
      obtain ⟨member, -, hmember⟩ := hcall
      split at hmember
      · cases hmember
        rfl
      · cases hmember
    · show "from" ∉ ["id", "groupId", "senderId", "content", "timestamp", "sender"]
      decide
    · show "to" ∉ ["id", "groupId", "senderId", "content", "timestamp", "sender"]
      decide

/-- C16 (witness): in `db0`, the private message "hello" of A to B, and the group message
"hi" of A to G: the `from`, `to`, `groupId` and `senderId` members of the pushed envelopes. -/
theorem C16_wire_envelopes_witness :
    ((controllers.SendPrivateMessage noFaults env0 db0 idA ⟨idB, "hello"⟩).sent.map
      (fun call => (call.1, (call.2.path ["data", "message"]).map JSON.keys)) =
        [(idB, some ["id", "from", "to", "content", "timestamp", "sender"])]) ∧
    ((controllers.SendGroupMessage noFaults env0 db0 idA ⟨idG, "hi"⟩).sent.map
      (fun call => (call.1, (call.2.path ["data", "message"]).map JSON.keys)) =
        [(idB, some ["id", "groupId", "senderId", "content", "timestamp", "sender"]),
         (idC, some ["id", "groupId", "senderId", "content", "timestamp", "sender"])]) ∧
    ∃ (message : Message) (sender : User) (body : JSON),
      (controllers.SendPrivateMessage noFaults env0 db0 idA ⟨idB, "hello"⟩).sent =
        [(idB, .obj [("data", .obj [("type", .str "private"), ("message", body)])])] ∧
      body = .obj [("id", .str message.ID.Hex), ("from", .str idA), ("to", .str idB),
        ("content", .str "hello"), ("timestamp", .time message.Timestamp),
        ("sender", .obj [("id", .oid sender.ID), ("username", .str sender.Username),
          ("avatar", .str sender.Avatar)])] := by
  refine ⟨by decide, by decide, ?_⟩
  obtain ⟨message, sender, body, -, -, -, hsent, hbody, -⟩ :=
    (C16_wire_envelopes noFaults env0 db0 idA).1 ⟨idB, "hello"⟩ (by decide)
  exact ⟨message, sender, body, hsent, hbody⟩

/-! ## The shape of the stored messages -/

/-- What `SendPrivateMessage` does to the messages: nothing, or one private, unread message
for a non-empty receiver id appended. -/
theorem SendPrivateMessage_messages (fails : Nat → Bool) (env : Env) (db : Store)
    (senderID : String) (req : controllers.SendPrivateMessageRequest) :
    (controllers.SendPrivateMessage fails env db senderID req).db.messages = db.messages ∨
    ∃ m : Message,
      (controllers.SendPrivateMessage fails env db senderID req).db.messages
        = db.messages ++ [m] ∧
      m.Type_ = "private" ∧ m.SenderID = senderID ∧ m.ReceiverID = req.ReceiverID ∧
      req.ReceiverID ≠ "" ∧ m.GroupID = "" ∧ m.Read = false := by
  unfold controllers.SendPrivateMessage
  cases hb : (req.ReceiverID == "" || req.Content == "") with
  | true => exact Or.inl rfl
  | false =>
    have hne : req.ReceiverID ≠ "" := by
      simp only [Bool.or_eq_false_iff, beq_eq_false_iff_ne, ne_eq] at hb
      exact hb.1
    simp only [Bool.false_eq_true, if_false]
    cases models.GetUserByID (fails 0) db req.ReceiverID with
    | error e => exact Or.inl rfl
    | ok u =>
      simp only
      cases models.GetFriendships (fails 1) db senderID "accepted" with
      | error e => exact Or.inl rfl
      | ok fs =>
        simp only
        cases fs.any (fun friendship =>
            (friendship.UserID == senderID && friendship.FriendID == req.ReceiverID) ||
            (friendship.UserID == req.ReceiverID && friendship.FriendID == senderID)) with
        | false => exact Or.inl rfl
        | true =>
          simp only [Bool.not_true, Bool.false_eq_true, if_false]
          cases hs : models.SavePrivateMessage (fails 2) env db senderID req.ReceiverID
              req.Content with
          | error e => exact Or.inl rfl
          | ok p =>
            obtain ⟨message, db1⟩ := p
            obtain ⟨hm, hdb1⟩ := SavePrivateMessage_ok_eq hs
            have hadd : db1.messages = db.messages ++ [message] := by rw [hdb1]
            have hshape : message.Type_ = "private" ∧ message.SenderID = senderID ∧
                message.ReceiverID = req.ReceiverID ∧ req.ReceiverID ≠ "" ∧
                message.GroupID = "" ∧ message.Read = false := by
              rw [hm]
              exact ⟨rfl, rfl, rfl, hne, rfl, rfl⟩
            simp only
            cases models.GetUserByID (fails 3) db1 senderID with
            | error e => exact Or.inr ⟨message, hadd, hshape⟩
            | ok sender => exact Or.inr ⟨message, hadd, hshape⟩

/-- What `SendGroupMessage` does to the messages: nothing, or one group, unread message for a
non-empty group id appended. -/
theorem SendGroupMessage_messages (fails : Nat → Bool) (env : Env) (db : Store)
    (senderID : String) (req : controllers.SendGroupMessageRequest) :
    (controllers.SendGroupMessage fails env db senderID req).db.messages = db.messages ∨
    ∃ m : Message,
      (controllers.SendGroupMessage fails env db senderID req).db.messages
        = db.messages ++ [m] ∧
      m.Type_ = "group" ∧ m.SenderID = senderID ∧ m.GroupID = req.GroupID ∧
      req.GroupID ≠ "" ∧ m.ReceiverID = "" ∧ m.Read = false := by
  unfold controllers.SendGroupMessage
  cases hb : (req.GroupID == "" || req.Content == "") with
  | true => exact Or.inl rfl
  | false =>
    have hne : req.GroupID ≠ "" := by
      simp only [Bool.or_eq_false_iff, beq_eq_false_iff_ne, ne_eq] at hb
      exact hb.1
    simp only [Bool.false_eq_true, if_false]
    cases models.GetGroupByID (fails 0) db req.GroupID with
    | error e => exact Or.inl rfl
    | ok u =>
      simp only
      cases models.GetUserGroups (fails 1) (fails 2) db senderID with
      | error e => exact Or.inl rfl
      | ok gs =>
        simp only
        cases gs.any (fun g => g.ID.Hex == req.GroupID) with
        | false => exact Or.inl rfl
        | true =>
          simp only [Bool.not_true, Bool.false_eq_true, if_false]
          cases hs : models.SaveGroupMessage (fails 3) env db senderID req.GroupID
              req.Content with
          | error e => exact Or.inl rfl
          | ok p =>
            obtain ⟨message, db1⟩ := p
            obtain ⟨hm, hdb1⟩ := SaveGroupMessage_ok_eq hs
            have hadd : db1.messages = db.messages ++ [message] := by rw [hdb1]
            have hshape : message.Type_ = "group" ∧ message.SenderID = senderID ∧
                message.GroupID = req.GroupID ∧ req.GroupID ≠ "" ∧
                message.ReceiverID = "" ∧ message.Read = false := by
              rw [hm]
              exact ⟨rfl, rfl, rfl, hne, rfl, rfl⟩
            simp only
            cases models.GetUserByID (fails 4) db1 senderID with
            | error e => exact Or.inr ⟨message, hadd, hshape⟩
            | ok sender =>
              simp only
              cases models.GetGroupMembers (fails 5) db1 req.GroupID with
              | error e => exact Or.inr ⟨message, hadd, hshape⟩
              | ok members => exact Or.inr ⟨message, hadd, hshape⟩

/-- The read-receipt handler keeps the shape of every message. -/
theorem MarkMessagesAsRead_shape (fails : Nat → Bool) (db : Store)
    (req : controllers.MarkMessagesAsReadRequest)
    (h : ∀ m ∈ db.messages, MessageShape m) :
    ∀ m ∈ (controllers.MarkMessagesAsRead fails db req).db.messages, MessageShape m := by
  unfold controllers.MarkMessagesAsRead
  cases req.MessageIDs with
  | none => exact h
  | some ids =>
    simp only
    split
    · exact h
    · unfold models.MarkMessagesAsRead
      cases fails 0 with
      | true => exact h
      | false =>
        simp only [Bool.false_eq_true, if_false]
        intro m hm
        rw [List.mem_map] at hm
        obtain ⟨m0, hm0, rfl⟩ := hm
        have h0 := h m0 hm0
        split
        · exact h0
        · exact h0

/-- C17: in every database the router reaches (from a database without messages, through
`SendPrivateMessage`, `SendGroupMessage` and `MarkMessagesAsRead` with any inputs, and through
operations that leave the messages alone), every message is private with a non-empty
receiver id and an empty group id, or group with a non-empty group id and an empty receiver
id; and a message that a send handler stores is appended unread. -/
theorem C17_message_shape (db : Store) :
    (Reachable db → ∀ m ∈ db.messages, MessageShape m) ∧
    (∀ fails env senderID (req : controllers.SendPrivateMessageRequest),
      (controllers.SendPrivateMessage fails env db senderID req).db.messages = db.messages ∨
      ∃ m : Message, (controllers.SendPrivateMessage fails env db senderID req).db.messages
          = db.messages ++ [m] ∧ m.Type_ = "private" ∧ m.Read = false) ∧
    (∀ fails env senderID (req : controllers.SendGroupMessageRequest),
      (controllers.SendGroupMessage fails env db senderID req).db.messages = db.messages ∨
      ∃ m : Message, (controllers.SendGroupMessage fails env db senderID req).db.messages
          = db.messages ++ [m] ∧ m.Type_ = "group" ∧ m.Read = false) := by
  refine ⟨?_, ?_, ?_⟩
  · intro hreach
    induction hreach with
    | start db h =>
      intro m hm
      rw [h] at hm
      cases hm
    | outside db db2 _ hm ih =>
      rw [hm]
      exact ih
    | sendPrivate fails env db senderID req _ ih =>
      rcases SendPrivateMessage_messages fails env db senderID req with
        h | ⟨m, h, ht, -, hr, hne, hg, -⟩
      · rw [h]
        exact ih
      · rw [h]
        intro m2 hm2
        rw [List.mem_append, List.mem_singleton] at hm2
        rcases hm2 with hm2 | rfl
        · exact ih m2 hm2
        · exact Or.inl ⟨ht, by rw [hr]; exact hne, hg⟩
    | sendGroup fails env db senderID req _ ih =>
      rcases SendGroupMessage_messages fails env db senderID req with
        h | ⟨m, h, ht, -, hg, hne, hr, -⟩
      · rw [h]
        exact ih
      · rw [h]
        intro m2 hm2
        rw [List.mem_append, List.mem_singleton] at hm2
        rcases hm2 with hm2 | rfl
        · exact ih m2 hm2
        · exact Or.inr ⟨ht, by rw [hg]; exact hne, hr⟩
    | markRead fails db req _ ih => exact MarkMessagesAsRead_shape fails db req ih
  · intro fails env senderID req
    rcases SendPrivateMessage_messages fails env db senderID req with
      h | ⟨m, h, ht, -, -, -, -, hread⟩
    · exact Or.inl h
    · exact Or.inr ⟨m, h, ht, hread⟩
  · intro fails env senderID req
    rcases SendGroupMessage_messages fails env db senderID req with
      h | ⟨m, h, ht, -, -, -, -, hread⟩
    · exact Or.inl h
    · exact Or.inr ⟨m, h, ht, hread⟩

/-- C17 (witness): `dbAfterSends` is reached from `db0` by a private send, a group send and
a read receipt; it holds one private and one group message of the right shape. -/
theorem C17_message_shape_witness :
    Reachable dbAfterSends ∧
    (∀ m ∈ dbAfterSends.messages, MessageShape m) ∧
    dbAfterSends.messages.map (fun m => (m.Type_, m.ReceiverID, m.GroupID)) =
      [("private", idB, ""), ("group", "", idG)] :=
  have hreach : Reachable dbAfterSends :=
    Reachable.markRead _ _ _ (Reachable.sendGroup _ _ _ _ _
      (Reachable.sendPrivate _ _ _ _ _ (Reachable.start db0 rfl)))
  ⟨hreach, (C17_message_shape dbAfterSends).1 hreach, by decide⟩

/-! ## The friendship edges -/

theorem mem_updateOne {α : Type} {p : α → Bool} {g : α → α} {l : List α} {y : α}
    (h : y ∈ updateOne p g l) : y ∈ l ∨ ∃ x ∈ l, p x = true ∧ y = g x := by
  induction l with
  | nil => cases h
  | cons x xs ih =>
    unfold updateOne at h
    by_cases hp : p x = true
    · rw [if_pos hp, List.mem_cons] at h
      rcases h with h | h
      · exact Or.inr ⟨x, List.mem_cons_self _ _, hp, h⟩
      · exact Or.inl (List.mem_cons_of_mem _ h)
    · rw [if_neg hp, List.mem_cons] at h
      rcases h with h | h
      · exact Or.inl (h ▸ List.mem_cons_self _ _)
      · rcases ih h with h2 | ⟨x0, hx0, hp0, h2⟩
        · exact Or.inl (List.mem_cons_of_mem _ h2)
        · exact Or.inr ⟨x0, List.mem_cons_of_mem _ hx0, hp0, h2⟩

/-- An update that keeps the relation of the updated document to the others keeps a pairwise
property of the collection. -/
theorem updateOne_pairwise {α : Type} {R : α → α → Prop} {p : α → Bool} {g : α → α}
    (l : List α)
    (hl : ∀ x ∈ l, ∀ y ∈ l, p x = true → R x y → R (g x) y)
    (hr : ∀ x ∈ l, ∀ y ∈ l, p y = true → R x y → R x (g y))
    (h : l.Pairwise R) : (updateOne p g l).Pairwise R := by
  induction l with
  | nil => exact List.Pairwise.nil
  | cons x xs ih =>
    rw [List.pairwise_cons] at h
    unfold updateOne
    by_cases hp : p x = true
    · rw [if_pos hp, List.pairwise_cons]
      exact ⟨fun y hy => hl x (List.mem_cons_self _ _) y (List.mem_cons_of_mem _ hy) hp
        (h.1 y hy), h.2⟩
    · rw [if_neg hp, List.pairwise_cons]
      refine ⟨?_, ih (fun a ha b hb => hl a (List.mem_cons_of_mem _ ha) b
        (List.mem_cons_of_mem _ hb)) (fun a ha b hb => hr a (List.mem_cons_of_mem _ ha) b
        (List.mem_cons_of_mem _ hb)) h.2⟩
      intro y hy
      rcases mem_updateOne hy with hy | ⟨y0, hy0, hp0, rfl⟩
      · exact h.1 y hy
      · exact hr x (List.mem_cons_self _ _) y0 (List.mem_cons_of_mem _ hy0) hp0 (h.1 y0 hy0)

/-- The update of one document keeps the number of documents. -/
theorem length_updateOne {α : Type} (p : α → Bool) (g : α → α) (l : List α) :
    (updateOne p g l).length = l.length := by
  induction l with
  | nil => rfl
  | cons x xs ih =>
    unfold updateOne
    by_cases hp : p x = true
    · rw [if_pos hp]; rfl
    · rw [if_neg hp, List.length_cons, List.length_cons, ih]

/-- An update that keeps a field of the updated document keeps the list of that field. -/
theorem map_updateOne {α β : Type} (p : α → Bool) (g : α → α) (k : α → β)
    (hk : ∀ x, k (g x) = k x) (l : List α) : (updateOne p g l).map k = l.map k := by
  induction l with
  | nil => rfl
  | cons x xs ih =>
    unfold updateOne
    by_cases hp : p x = true
    · rw [if_pos hp, List.map_cons, List.map_cons, hk]
    · rw [if_neg hp, List.map_cons, List.map_cons, ih]

/-- The search of `models.AddFriend` for an existing edge finds nothing exactly when no
non-deleted edge joins the two users. -/
theorem find_edge_none_iff (db : Store) (userID friendID : String) :
    db.friendships.find? (fun f =>
      ((f.UserID == userID && f.FriendID == friendID) ||
        (f.UserID == friendID && f.FriendID == userID)) && f.Deleted == false) = none ↔
    ¬ LiveEdge db userID friendID := by
  rw [List.find?_eq_none]
  unfold LiveEdge
  simp only [Bool.and_eq_true, Bool.or_eq_true, beq_iff_eq, not_exists, not_and]
  constructor
  · intro h f hf hd hp
    exact h f hf hp hd
  · intro h f hf hp hd
    exact h f hf hd hp

/-- What a successful `models.AddFriend` did: it appended a pending, non-deleted edge between
two users that no non-deleted edge joined. -/
theorem AddFriend_ok {e1 e2 e3 e4 : Bool} {env : Env} {db db1 : Store}
    {userID friendID : String} {fr : Friendship}
    (h : models.AddFriend e1 e2 e3 e4 env db userID friendID = .ok (fr, db1)) :
    fr = { ID := env.newID, UserID := userID, FriendID := friendID, Status := "pending",
           CreatedAt := env.now, UpdatedAt := env.now, Deleted := false } ∧
    db1 = { db with friendships := db.friendships ++ [fr] } ∧
    ¬ LiveEdge db userID friendID := by
  unfold models.AddFriend at h
  cases h1 : models.GetUserByID e1 db userID with
  | error e => rw [h1] at h; cases h
  | ok u1 =>
    rw [h1] at h
    simp only at h
    cases h2 : models.GetUserByID e2 db friendID with
    | error e => rw [h2] at h; cases h
    | ok u2 =>
      rw [h2] at h
      simp only at h
      cases e3 with
      | true => cases h
      | false =>
        simp only [Bool.false_eq_true, if_false] at h
        cases hf : db.friendships.find? (fun f =>
            ((f.UserID == userID && f.FriendID == friendID) ||
              (f.UserID == friendID && f.FriendID == userID)) && f.Deleted == false) with
        | some f => rw [hf] at h; cases h
        | none =>
          rw [hf] at h
          simp only at h
          cases e4 with
          | true => cases h
          | false =>
            simp only [Bool.false_eq_true, if_false, Except.ok.injEq, Prod.mk.injEq] at h
            obtain ⟨hfr, hdb⟩ := h
            subst hfr
            exact ⟨rfl, hdb.symm, (find_edge_none_iff db userID friendID).mp hf⟩

/-- With a non-deleted edge between the two users `models.AddFriend` returns an error,
whatever the store errors; it is the error of the existing edge when both users exist and the
store answers the three reads. -/
theorem AddFriend_live {db : Store} {userID friendID : String}
    (hlive : LiveEdge db userID friendID) (e1 e2 e3 e4 : Bool) (env : Env) :
    (∃ e, models.AddFriend e1 e2 e3 e4 env db userID friendID = .error e) ∧
    (UserExists db userID → UserExists db friendID → e1 = false → e2 = false → e3 = false →
      models.AddFriend e1 e2 e3 e4 env db userID friendID = .error (.New "好友关系已存在")) := by
  have hfind : ∃ f, db.friendships.find? (fun f =>
      ((f.UserID == userID && f.FriendID == friendID) ||
        (f.UserID == friendID && f.FriendID == userID)) && f.Deleted == false) = some f := by
    cases hf : db.friendships.find? (fun f =>
        ((f.UserID == userID && f.FriendID == friendID) ||
          (f.UserID == friendID && f.FriendID == userID)) && f.Deleted == false) with
    | none => exact absurd hlive ((find_edge_none_iff db userID friendID).mp hf)
    | some f => exact ⟨f, rfl⟩
  obtain ⟨f, hf⟩ := hfind
  constructor
  · unfold models.AddFriend
    cases models.GetUserByID e1 db userID with
    | error e => exact ⟨_, rfl⟩
    | ok u1 =>
      simp only
      cases models.GetUserByID e2 db friendID with
      | error e => exact ⟨_, rfl⟩
      | ok u2 =>
        simp only
        cases e3 with
        | true => exact ⟨_, rfl⟩
        | false =>
          simp only [Bool.false_eq_true, if_false, hf]
          exact ⟨_, rfl⟩
  · intro hu hfr h1 h2 h3
    obtain ⟨u1, hu1⟩ := GetUserByID_ok_of_exists hu
    obtain ⟨u2, hu2⟩ := GetUserByID_ok_of_exists hfr
    unfold models.AddFriend
    rw [h1, h2, h3, hu1, hu2]
    simp only [Bool.false_eq_true, if_false, hf]

theorem AddFriend_unique {e1 e2 e3 e4 : Bool} {env : Env} {db db1 : Store}
    {userID friendID : String} {fr : Friendship}
    (hu : UniqueEdges db.friendships)
    (h : models.AddFriend e1 e2 e3 e4 env db userID friendID = .ok (fr, db1)) :
    UniqueEdges db1.friendships := by
  obtain ⟨hfr, hdb, hlive⟩ := AddFriend_ok h
  rw [hdb]
  unfold UniqueEdges at hu ⊢
  rw [List.pairwise_append]
  refine ⟨hu, List.pairwise_singleton _ _, ?_⟩
  intro f hf g hg
  rw [List.mem_singleton] at hg
  rintro ⟨hd, -, hpair⟩
  apply hlive
  refine ⟨f, hf, hd, ?_⟩
  rw [hg, hfr] at hpair
  exact hpair

theorem UpdateFriendship_unique {e : Bool} {now : Nat} {db db1 : Store}
    {friendship : Friendship}
    (hu : UniqueEdges db.friendships)
    (hkeep : ∀ f ∈ db.friendships, f.ID = friendship.ID →
      f.UserID = friendship.UserID ∧ f.FriendID = friendship.FriendID ∧
        f.Deleted = friendship.Deleted)
    (h : models.UpdateFriendship e now db friendship = .ok db1) :
    UniqueEdges db1.friendships := by
  unfold models.UpdateFriendship at h
  cases e with
  | true => cases h
  | false =>
    simp only [Bool.false_eq_true, if_false, Except.ok.injEq] at h
    rw [← h]
    unfold UniqueEdges at hu ⊢
    apply updateOne_pairwise _ _ _ hu
    · intro x hx y _ hp hR
      rw [beq_iff_eq] at hp
      obtain ⟨h1, h2, h3⟩ := hkeep x hx hp
      unfold SamePair at hR ⊢
      simp only at h1 h2 h3 ⊢
      rw [← h1, ← h2, ← h3]
      exact hR
    · intro x _ y hy hp hR
      rw [beq_iff_eq] at hp
      obtain ⟨h1, h2, h3⟩ := hkeep y hy hp
      unfold SamePair at hR ⊢
      simp only at h1 h2 h3 ⊢
      rw [← h1, ← h2, ← h3]
      exact hR

theorem DeleteFriendship_unique {e : Bool} {now : Nat} {db db1 : Store} {id : String}
    (hu : UniqueEdges db.friendships)
    (h : models.DeleteFriendship e now db id = .ok db1) :
    UniqueEdges db1.friendships ∧
    db1.friendships.map (fun f => (f.ID, f.UserID, f.FriendID, f.Status, f.CreatedAt)) =
      db.friendships.map (fun f => (f.ID, f.UserID, f.FriendID, f.Status, f.CreatedAt)) ∧
    (∀ f ∈ db1.friendships, f ∈ db.friendships ∨ f.Deleted = true) := by
  unfold models.DeleteFriendship at h
  cases ho : ObjectIDFromHex id with
  | none => rw [ho] at h; cases h
  | some o =>
    rw [ho] at h
    simp only at h
    cases e with
    | true => cases h
    | false =>
      simp only [Bool.false_eq_true, if_false, Except.ok.injEq] at h
      rw [← h]
      refine ⟨?_, ?_, ?_⟩
      · unfold UniqueEdges at hu ⊢
        apply updateOne_pairwise _ _ _ hu
        · intro x _ y _ _ _
          simp
        · intro x _ y _ _ _
          simp
      · exact map_updateOne (fun f : Friendship => f.ID == o)
          (fun f : Friendship => { f with Deleted := true, UpdatedAt := now })
          (fun f : Friendship => (f.ID, f.UserID, f.FriendID, f.Status, f.CreatedAt))
          (fun _ => rfl) db.friendships
      · intro f hf
        rcases mem_updateOne hf with hf | ⟨f0, -, -, rfl⟩
        · exact Or.inl hf
        · exact Or.inr rfl

theorem GetUserByUsername_exists {db : Store} {e : Bool} {username : String} {u : User}
    (h : models.GetUserByUsername e db username = .ok u) : UserExists db u.ID.Hex := by
  unfold models.GetUserByUsername at h
  cases e with
  | true => cases h
  | false =>
    simp only [Bool.false_eq_true, if_false] at h
    cases hf : db.users.find? (fun v => v.Username == username && v.Deleted == false) with
    | none => rw [hf] at h; cases h
    | some v =>
      rw [hf] at h
      cases h
      have hm := List.mem_of_find?_eq_some hf
      have hp := List.find?_some hf
      simp only [Bool.and_eq_true, beq_iff_eq] at hp
      exact ⟨u, hm, ObjectIDFromHex_Hex u.ID, hp.2⟩

/-- The handler `AddFriend` answers Conflict (409) and changes nothing when a non-deleted edge
already joins the caller and the user found by name. -/
theorem AddFriend_handler_conflict (fails : Nat → Bool) (env : Env) (now2 : Nat) (db : Store)
    (userID : String) (req : controllers.AddFriendRequest) (friend : User)
    (hbind : req.FriendId ≠ "")
    (hfriend : models.GetUserByUsername (fails 0) db req.FriendId = .ok friend)
    (hself : friend.ID.Hex ≠ userID)
    (hlive : LiveEdge db userID friend.ID.Hex) (huser : UserExists db userID)
    (h1 : fails 1 = false) (h2 : fails 2 = false) (h3 : fails 3 = false) :
    controllers.AddFriend fails env now2 db userID req =
      ⟨.json http.StatusConflict (.error "已经是好友或好友请求已发送"), db, []⟩ := by
  have herr := (AddFriend_live hlive (fails 1) (fails 2) (fails 3) (fails 4) env).2 huser
    (GetUserByUsername_exists hfriend) h1 h2 h3
  have hb : (req.FriendId == "") = false := by simp [hbind]
  have hs : (friend.ID.Hex == userID) = false := by simp [hself]
  have htext : ((Error.New "好友关系已存在").text == "好友关系已存在") = true := by decide
  unfold controllers.AddFriend
  simp only [hb, Bool.false_eq_true, if_false, hfriend, hs, herr, htext, if_true]

/-- The handler `AddFriend` keeps the uniqueness of the non-deleted edges, the driver giving
the inserted record an id that no stored record has. -/
theorem AddFriend_handler_unique (fails : Nat → Bool) (env : Env) (now2 : Nat) (db : Store)
    (userID : String) (req : controllers.AddFriendRequest)
    (hu : UniqueEdges db.friendships) (hfresh : ∀ f ∈ db.friendships, f.ID ≠ env.newID) :
    UniqueEdges (controllers.AddFriend fails env now2 db userID req).db.friendships := by
  unfold controllers.AddFriend
  split
  · exact hu
  · split
    · exact hu
    · split
      · exact hu
      · split
        · split
          · exact hu
          · exact hu
        · rename_i friend _ _ fr db1 hadd
          have hu1 := AddFriend_unique hu hadd
          obtain ⟨hfr, hdb1, -⟩ := AddFriend_ok hadd
          simp only
          split
          · exact hu1
          · rename_i db2 hupd
            apply UpdateFriendship_unique hu1 _ hupd
            intro f hf hid
            rw [hdb1] at hf
            simp only [List.mem_append, List.mem_singleton] at hf hid
            rcases hf with hf | hf
            · exact absurd (by rw [hid, hfr]) (hfresh f hf)
            · rw [hf]
              exact ⟨rfl, rfl, rfl⟩

/-- C18 (amended): when the friendships hold at most one non-deleted edge per unordered pair,
they still do after `models.AddFriend`, after `models.DeleteFriendship`, after a
`models.UpdateFriendship` that leaves the user id, the friend id and the deleted flag of the
stored record as they are, and after the handler `AddFriend` (the only caller of
`UpdateFriendship`, which sets the status of the record it just inserted). `AddFriend(A, B)`
returns an error and inserts nothing whenever a non-deleted edge (A, B) or (B, A) of any
status exists; the error is the one of the existing edge when both users exist and the store
answers, and the handler surfaces it as Conflict (409). A deletion keeps every record, with
its id, users, status and creation time, and only marks records deleted. -/
theorem C18_friendship_uniqueness (db : Store) (hu : UniqueEdges db.friendships) :
    (∀ e1 e2 e3 e4 env userID friendID fr db1,
      models.AddFriend e1 e2 e3 e4 env db userID friendID = .ok (fr, db1) →
      UniqueEdges db1.friendships ∧ db1.friendships = db.friendships ++ [fr] ∧
        ¬ LiveEdge db userID friendID) ∧
    (∀ e now friendship db1,
      (∀ f ∈ db.friendships, f.ID = friendship.ID →
        f.UserID = friendship.UserID ∧ f.FriendID = friendship.FriendID ∧
          f.Deleted = friendship.Deleted) →
      models.UpdateFriendship e now db friendship = .ok db1 →
      UniqueEdges db1.friendships) ∧
    (∀ e now id db1, models.DeleteFriendship e now db id = .ok db1 →
      UniqueEdges db1.friendships ∧
      db1.friendships.map (fun f => (f.ID, f.UserID, f.FriendID, f.Status, f.CreatedAt)) =
        db.friendships.map (fun f => (f.ID, f.UserID, f.FriendID, f.Status, f.CreatedAt)) ∧
      (∀ f ∈ db1.friendships, f ∈ db.friendships ∨ f.Deleted = true)) ∧
    (∀ userID friendID, LiveEdge db userID friendID → ∀ e1 e2 e3 e4 env,
      (∃ e, models.AddFriend e1 e2 e3 e4 env db userID friendID = .error e) ∧
      (UserExists db userID → UserExists db friendID → e1 = false → e2 = false →
        e3 = false →
        models.AddFriend e1 e2 e3 e4 env db userID friendID =
          .error (.New "好友关系已存在"))) ∧
    (∀ fails env now2 userID (req : controllers.AddFriendRequest) friend,
      req.FriendId ≠ "" →
      models.GetUserByUsername (fails 0) db req.FriendId = .ok friend →
      friend.ID.Hex ≠ userID → LiveEdge db userID friend.ID.Hex → UserExists db userID →
      fails 1 = false → fails 2 = false → fails 3 = false →
      controllers.AddFriend fails env now2 db userID req =
        ⟨.json http.StatusConflict (.error "已经是好友或好友请求已发送"), db, []⟩) ∧
    (∀ fails env now2 userID (req : controllers.AddFriendRequest),
      (∀ f ∈ db.friendships, f.ID ≠ env.newID) →
      UniqueEdges (controllers.AddFriend fails env now2 db userID req).db.friendships) := by
  refine ⟨?_, ?_, ?_, ?_, ?_, ?_⟩
  · intro e1 e2 e3 e4 env userID friendID fr db1 h
    obtain ⟨-, hdb, hlive⟩ := AddFriend_ok h
    exact ⟨AddFriend_unique hu h, by rw [hdb], hlive⟩
  · intro e now friendship db1 hkeep h
    exact UpdateFriendship_unique hu hkeep h
  · intro e now id db1 h
    exact DeleteFriendship_unique hu h
  · intro userID friendID hlive e1 e2 e3 e4 env
    exact AddFriend_live hlive e1 e2 e3 e4 env
  · intro fails env now2 userID req friend hbind hfriend hself hlive huser h1 h2 h3
    exact AddFriend_handler_conflict fails env now2 db userID req friend hbind hfriend hself
      hlive huser h1 h2 h3
  · intro fails env now2 userID req hfresh
    exact AddFriend_handler_unique fails env now2 db userID req hu hfresh

/-- C18 (witness): `dbEdges` has the accepted edges (A, B) and (A, C). Adding B as a friend of
A again fails with the error of the existing edge, in either direction, and the handler
answers Conflict; deleting the edge 1 keeps two records. -/
theorem C18_friendship_uniqueness_witness :
    UniqueEdges dbEdges.friendships ∧
    models.AddFriend false false false false env0 dbEdges idB idA =
      .error (.New "好友关系已存在") ∧
    controllers.AddFriend noFaults env0 0 dbEdges idA ⟨"bob"⟩ =
      ⟨.json http.StatusConflict (.error "已经是好友或好友请求已发送"), dbEdges, []⟩ ∧
    ((models.DeleteFriendship false 9 dbEdges "000000000000000000000001").toOption.map
      (fun d => d.friendships.map (fun f => (f.ID, f.Deleted)))) =
        some [(1, true), (2, false)] :=
  have hu : UniqueEdges dbEdges.friendships := by decide
  have h := C18_friendship_uniqueness dbEdges hu
  ⟨hu,
    (h.2.2.2.1 idB idA (by decide) false false false false env0).2 (by decide) (by decide)
      rfl rfl rfl,
    h.2.2.2.2.1 noFaults env0 0 idA ⟨"bob"⟩ (mkUser 0xbbbbbbbbbbbbbbbbbbbbbbbb "bob" false)
      (by decide) rfl (by decide) (by decide) (by decide) rfl rfl rfl,
    by decide⟩

/-- C18 (counterexample): in `dbEdges` the edges are unique, and `UpdateFriendship` with the
record of edge 2 pointing to B instead of C succeeds and leaves two non-deleted edges between
A and B. In `dbSenderDeleted` a non-deleted edge (A, B) exists and user A is soft-deleted:
`AddFriend(A, B)` fails with the error of the missing user, not with the error of the
existing edge, and the handler answers 500, not Conflict. -/
theorem C18_counterexample :
    (UniqueEdges dbEdges.friendships ∧
      (models.UpdateFriendship false 0 dbEdges edgeMoved).toOption.map
        (fun d => decide (UniqueEdges d.friendships)) = some false) ∧
    (LiveEdge dbSenderDeleted idA idB ∧
      models.AddFriend false false false false env0 dbSenderDeleted idA idB =
        .error (.New "用户不存在") ∧
      (controllers.AddFriend noFaults env0 0 dbSenderDeleted idA ⟨"bob"⟩).resp.status =
        some http.StatusInternalServerError) :=
  ⟨⟨by decide, by decide⟩, by decide, rfl, by decide⟩

/-! ## Private history: isolation of the conversation -/

theorem page_subset {limit skip : Int} {sorted result : List Message}
    (h : page limit skip sorted = .ok result) : ∀ m ∈ result, m ∈ sorted := by
  unfold page at h
  split at h
  · cases h
  · simp only [Except.ok.injEq] at h
    intro m hm
    rw [← h] at hm
    split at hm
    · exact List.mem_of_mem_drop hm
    · exact List.mem_of_mem_drop (List.mem_of_mem_take hm)

theorem conversation_filter_symm (u1 u2 : String) (m : Message) :
    (m.Type_ == MessageTypePrivate &&
      ((m.SenderID == u1 && omitemptyEq m.ReceiverID u2) ||
        (m.SenderID == u2 && omitemptyEq m.ReceiverID u1))) =
    (m.Type_ == MessageTypePrivate &&
      ((m.SenderID == u2 && omitemptyEq m.ReceiverID u1) ||
        (m.SenderID == u1 && omitemptyEq m.ReceiverID u2))) := by
  rw [Bool.or_comm]

/-- C19: for every database, users `u1` and `u2`, page and tie order, every message that
`models.GetPrivateMessages(u1, u2, ...)` returns is a stored message of type private whose
sender and receiver are `u1` and `u2` in one of the two orders, so it is no group message and
involves no third user; the filter matches the same messages for (u1, u2) and for (u2, u1),
and the two calls return the same list. -/
theorem C19_conversation_isolation (err : Bool) (rank : Message → Nat) (db : Store)
    (u1 u2 : String) (limit skip : Int) :
    (∀ result, models.GetPrivateMessages err rank db u1 u2 limit skip = .ok result →
      ∀ m ∈ result, m ∈ db.messages ∧ m.Type_ = "private" ∧ m.Type_ ≠ "group" ∧
        ((m.SenderID = u1 ∧ m.ReceiverID = u2) ∨ (m.SenderID = u2 ∧ m.ReceiverID = u1))) ∧
    (db.messages.filter (fun m =>
        m.Type_ == MessageTypePrivate &&
          ((m.SenderID == u1 && omitemptyEq m.ReceiverID u2) ||
            (m.SenderID == u2 && omitemptyEq m.ReceiverID u1))) =
      db.messages.filter (fun m =>
        m.Type_ == MessageTypePrivate &&
          ((m.SenderID == u2 && omitemptyEq m.ReceiverID u1) ||
            (m.SenderID == u1 && omitemptyEq m.ReceiverID u2)))) ∧
    models.GetPrivateMessages err rank db u1 u2 limit skip =
      models.GetPrivateMessages err rank db u2 u1 limit skip := by
  have hfilter : db.messages.filter (fun m =>
        m.Type_ == MessageTypePrivate &&
          ((m.SenderID == u1 && omitemptyEq m.ReceiverID u2) ||
            (m.SenderID == u2 && omitemptyEq m.ReceiverID u1))) =
      db.messages.filter (fun m =>
        m.Type_ == MessageTypePrivate &&
          ((m.SenderID == u2 && omitemptyEq m.ReceiverID u1) ||
            (m.SenderID == u1 && omitemptyEq m.ReceiverID u2))) :=
    List.filter_congr (fun m _ => conversation_filter_symm u1 u2 m)
  refine ⟨?_, hfilter, ?_⟩
  · intro result h m hm
    unfold models.GetPrivateMessages at h
    cases err with
    | true => cases h
    | false =>
      simp only [Bool.false_eq_true, if_false] at h
      have hs := page_subset h m hm
      rw [List.mem_insertionSort, List.mem_filter] at hs
      obtain ⟨⟨ht, hc⟩, -⟩ := (conversation_filter_iff u1 u2 m).mp hs.2
      refine ⟨hs.1, ht, ?_, hc⟩
      rw [ht]
      decide
  · unfold models.GetPrivateMessages
    rw [hfilter]

/-- C19 (witness): `dbHistory` holds, besides the conversation of A and B, a private message
of C to A and group messages; the whole history of A and B, read from either side, is the
three messages 1, 4 and 2. -/
theorem C19_conversation_isolation_witness :
    (models.GetPrivateMessages false rankNatural dbHistory idA idB 20 0).toOption.map
      (fun ms => ms.map (fun m => (m.ID, m.SenderID, m.ReceiverID))) =
        some [(1, idA, idB), (4, idA, idB), (2, idB, idA)] ∧
    models.GetPrivateMessages false rankNatural dbHistory idA idB 20 0 =
      models.GetPrivateMessages false rankNatural dbHistory idB idA 20 0 :=
  ⟨by decide, (C19_conversation_isolation false rankNatural dbHistory idA idB 20 0).2.2⟩

end GinVueChat
